import Mathlib

/-!
Thermostat task scheduler (`gpiointerrupt.c`).

A shallow embedding of the CC3220SF thermostat program: the global variables
become one record, every C function becomes a function on that record, and
the driver calls (I2C, UART, GPIO) are recorded in logs carried by the record.
The result of each `I2C_transfer` call is supplied by an environment
`env : Nat → BusOutcome`, indexed by the number of transfers issued so far.
-/

namespace GpioInterrupt

/-! ## Machine integers -/

/-- Largest value of `unsigned long` on the target (32-bit ARM Cortex-M4). -/
def ULONG_MAX : Nat := 4294967295

/-- Arithmetic on `unsigned long` is modulo `ULONG_MAX + 1`. -/
def toULong (x : Nat) : Nat := x % (ULONG_MAX + 1)

/-- Narrowing of an `int` to `int16_t`: reduction modulo 2^16 into
`[-32768, 32767]` (two's complement, as the target's compilers do). -/
def toInt16 (x : Int) : Int := (x + 32768) % 65536 - 32768

/-- Reduction of an `int` result into `[-2^31, 2^31 - 1]` (two's complement
wrap of the 32-bit `int` of the target). -/
def toInt32 (x : Int) : Int := (x + 2147483648) % 4294967296 - 2147483648

/-- The operator `|` on two `int` values: the bitwise OR of their 32-bit
two's complement representations. -/
def orInt (x y : Int) : Int :=
  toInt32 (((x % 4294967296).toNat ||| (y % 4294967296).toNat : Nat) : Int)

/-! ## Data model -/

/-- The three functions a task's `TickFct` pointer is ever set to. -/
inductive TaskFn
  | TempRead
  | TempManip
  | TempReport
  deriving DecidableEq, Repr

/-- The `task` struct. -/
structure task where
  period : Nat
  elapsedTime : Nat
  TickFct : TaskFn
  deriving DecidableEq, Repr

/-- One row of the constant `sensors` table. -/
structure Sensor where
  address : Nat
  resultReg : Nat
  id : String
  deriving DecidableEq, Repr

/-- The constant table `sensors[3]`. -/
def sensors : List Sensor :=
  [⟨0x48, 0x0000, "11X"⟩, ⟨0x49, 0x0000, "116"⟩, ⟨0x41, 0x0001, "006"⟩]

/-- The fields of `I2C_Transaction` the program uses. `writeBuf` and `readBuf`
always point to `txBuffer` and `rxBuffer`. -/
structure I2C_Transaction where
  writeCount : Nat
  readCount : Nat
  slaveAddress : Nat
  status : Int
  deriving DecidableEq, Repr

/-- What the bus driver answers to one `I2C_transfer` call: whether the
transfer succeeded, the status code it stores in the transaction, and the
bytes received (used only as far as `readCount` asks for them). -/
structure BusOutcome where
  ok : Bool
  status : Int
  rx0 : Nat
  rx1 : Nat
  deriving DecidableEq, Repr

/-- One transfer as seen on the bus: the address, the written byte and the
two counts of the transaction at the time of the call. -/
structure BusRequest where
  slaveAddress : Nat
  txByte : Nat
  writeCount : Nat
  readCount : Nat
  deriving DecidableEq, Repr

/-- One `UART_write(uart, &output, n)` call: the text held by `output` at the
time of the call and the byte count `n` handed to the driver. -/
structure UartWrite where
  buffer : List Char
  count : Nat
  deriving DecidableEq, Repr

/-- Modelled from the spec: the two levels `CONFIG_GPIO_LED_ON` and
`CONFIG_GPIO_LED_OFF` of `ti_drivers_config.h`, which is not part of the
sources; the spec calls them the asserted and de-asserted heater output. -/
inductive LedLevel
  | CONFIG_GPIO_LED_ON
  | CONFIG_GPIO_LED_OFF
  deriving DecidableEq, Repr

/-- The global variables of the program, followed by four logs that record
its calls: UART writes, bus transfers, writes to the heater pin and task
functions invoked by the scheduler (with the table index). -/
structure State where
  output : List Char
  txBuffer : Nat
  rxBuffer0 : Nat
  rxBuffer1 : Nat
  i2cTransaction : I2C_Transaction
  TimerFlag : Nat
  IncrFlag : Nat
  DecrFlag : Nat
  RoomTemp : Int
  SetTemp : Int
  Heating : Nat
  Duration : Int
  tasks : Fin 3 → task
  uartLog : List UartWrite
  busLog : List BusRequest
  ledLog : List LedLevel
  callLog : List (Fin 3 × TaskFn)

def tasksNum : Nat := 3
def tasksPeriodGCD : Nat := 100
def periodTempRead : Nat := 500
def periodTempManip : Nat := 200
def periodTempReport : Nat := 1000

/-! ## Text output -/

/-- The conversion `%0<width>d` of `printf` (`%d` is width 0): decimal digits,
padded with zeros on the left up to the width, the sign counted in. -/
def fmt_d (width : Nat) (n : Int) : List Char :=
  let ds := Nat.toDigits 10 n.natAbs
  if n < 0 then '-' :: (List.replicate (width - 1 - ds.length) '0' ++ ds)
  else List.replicate (width - ds.length) '0' ++ ds

/-- The conversion `%x` of an unsigned value. -/
def fmt_x (n : Nat) : List Char := Nat.toDigits 16 n

/-- The call `snprintf(output, size, ...)` on the expanded text: what is
stored in the buffer (at most `size - 1` characters before the terminator) and
the value returned (the length of the whole text). -/
def snprintf (size : Nat) (text : List Char) : List Char × Nat :=
  (text.take (size - 1), text.length)

/-- The macro `DISPLAY(snprintf(output, size, ...))`: format into `output`,
then hand `output` and the returned count to `UART_write`. -/
def DISPLAY (s : State) (size : Nat) (text : List Char) : State :=
  let r := snprintf size text
  { s with output := r.1, uartLog := s.uartLog ++ [⟨r.1, r.2⟩] }

/-! ## I2C -/

/-- The call `I2C_transfer(i2c, &i2cTransaction)`. The request is logged, the
driver's status is stored in the transaction, and on success the first
`readCount` received bytes are stored in `rxBuffer`. -/
def I2C_transfer (env : Nat → BusOutcome) (s : State) : State × Bool :=
  let o := env s.busLog.length
  let s1 : State :=
    { s with
      busLog := s.busLog ++ [⟨s.i2cTransaction.slaveAddress, s.txBuffer,
        s.i2cTransaction.writeCount, s.i2cTransaction.readCount⟩],
      i2cTransaction := { s.i2cTransaction with status := o.status } }
  if o.ok then
    ({ s1 with
       rxBuffer0 := if 1 ≤ s.i2cTransaction.readCount then o.rx0 % 256 else s.rxBuffer0,
       rxBuffer1 := if 2 ≤ s.i2cTransaction.readCount then o.rx1 % 256 else s.rxBuffer1 },
     true)
  else (s1, false)

/-- The probe loop of `initI2C` over the candidates not yet tried; returns the
candidate at which the loop stopped with `found = true`, if any. -/
def probeLoop (env : Nat → BusOutcome) : List Sensor → State → State × Option Sensor
  | [], s => (s, none)
  | c :: rest, s =>
    let s1 : State :=
      { s with
        i2cTransaction := { s.i2cTransaction with slaveAddress := c.address },
        txBuffer := c.resultReg }
    let s2 := DISPLAY s1 64 ("Is this ".toList ++ c.id.toList ++ "? ".toList)
    let r := I2C_transfer env s2
    if r.2 then (DISPLAY r.1 64 "Found\n\r".toList, some c)
    else probeLoop env rest (DISPLAY r.1 64 "No\n\r".toList)

/-- The function `initI2C`, on the path where `I2C_open` succeeds (otherwise
the program stops in `while (1)`). -/
def initI2C (env : Nat → BusOutcome) (s : State) : State :=
  let s1 := DISPLAY s 64 "Initializing I2C Driver - ".toList
  let s2 := DISPLAY s1 32 "Passed\n\r".toList
  let s3 : State :=
    { s2 with i2cTransaction := { s2.i2cTransaction with writeCount := 1, readCount := 0 } }
  let r := probeLoop env sensors s3
  match r.2 with
  | some c =>
    DISPLAY r.1 64 ("Detected TMP".toList ++ c.id.toList ++ " I2C address:".toList
      ++ fmt_x r.1.i2cTransaction.slaveAddress ++ "\n\r".toList)
  | none =>
    DISPLAY r.1 64 "Temperature sensor not found, contact professor\n\r".toList

/-- The function `readTemp`: the state after the call and the value returned.
The product `temperature *= 0.0078125` is computed in `double`; the factor is
2^-7 and `temperature` is a 16-bit integer, so the product is exact and its
conversion back to `int16_t` is the quotient by 128 truncated toward zero. -/
def readTemp (env : Nat → BusOutcome) (s : State) : State × Int :=
  let temperature : Int := 0
  let s1 : State := { s with i2cTransaction := { s.i2cTransaction with readCount := 2 } }
  let r := I2C_transfer env s1
  if r.2 then
    let temperature := toInt16 (((r.1.rxBuffer0 <<< 8) ||| r.1.rxBuffer1 : Nat) : Int)
    let temperature := toInt16 (Int.tdiv temperature 128)
    let temperature :=
      if r.1.rxBuffer0 &&& 0x80 ≠ 0 then toInt16 (orInt temperature 0xF000) else temperature
    (r.1, temperature)
  else
    let s2 := DISPLAY r.1 64 ("Error reading temperature sensor(".toList
      ++ fmt_d 0 r.1.i2cTransaction.status ++ ")\n\r".toList)
    let s3 := DISPLAY s2 64
      "Please power cycle your board by unplugging USB and plugging back in.\n\r".toList
    (s3, temperature)

/-! ## Callbacks -/

def timerCallback (s : State) : State := { s with TimerFlag := 1 }

def gpioButtonFxn0 (s : State) : State := { s with DecrFlag := 1 }

def gpioButtonFxn1 (s : State) : State := { s with IncrFlag := 1 }

/-! ## Tasks -/

def TickFct_TempRead (env : Nat → BusOutcome) (s : State) : State :=
  let r := readTemp env s
  { r.1 with RoomTemp := r.2 }

def TickFct_TempManip (s : State) : State :=
  let s1 : State :=
    if s.IncrFlag ≠ 0 then
      let s' : State := if s.SetTemp < 99 then { s with SetTemp := toInt16 (s.SetTemp + 1) } else s
      { s' with IncrFlag := 0 }
    else s
  if s1.DecrFlag ≠ 0 then
    let s' : State := if s1.SetTemp > 0 then { s1 with SetTemp := toInt16 (s1.SetTemp - 1) } else s1
    { s' with DecrFlag := 0 }
  else s1

/-- The text expanded from `"<%02d,%02d,%d,%04d>\n\r"`. -/
def reportText (room set : Int) (heating : Nat) (duration : Int) : List Char :=
  '<' :: (fmt_d 2 room ++ ',' :: (fmt_d 2 set ++ ',' :: (fmt_d 0 heating ++ ',' ::
    (fmt_d 4 duration ++ ">\n\r".toList))))

def TickFct_TempReport (s : State) : State :=
  let s1 : State :=
    if s.RoomTemp < s.SetTemp then
      { s with Heating := 1, ledLog := s.ledLog ++ [LedLevel.CONFIG_GPIO_LED_ON] }
    else if s.RoomTemp ≥ s.SetTemp then
      { s with Heating := 0, ledLog := s.ledLog ++ [LedLevel.CONFIG_GPIO_LED_OFF] }
    else s
  let s2 := DISPLAY s1 64 (reportText s1.RoomTemp s1.SetTemp s1.Heating s1.Duration)
  { s2 with Duration := toInt32 (s2.Duration + 1) }

/-! ## Scheduler -/

/-- The call `tasks[i].TickFct()` through the function pointer. -/
def callTickFct (env : Nat → BusOutcome) : TaskFn → State → State
  | TaskFn.TempRead, s => TickFct_TempRead env s
  | TaskFn.TempManip, s => TickFct_TempManip s
  | TaskFn.TempReport, s => TickFct_TempReport s

/-- The body of the loop of `TickFct_Scheduler` for index `i`. -/
def schedulerBody (env : Nat → BusOutcome) (i : Fin 3) (s : State) : State :=
  let s1 : State :=
    if (s.tasks i).elapsedTime ≥ (s.tasks i).period then
      let s' := callTickFct env (s.tasks i).TickFct
        { s with callLog := s.callLog ++ [(i, (s.tasks i).TickFct)] }
      let t : task := { s'.tasks i with elapsedTime := 0 }
      { s' with tasks := Function.update s'.tasks i t }
    else s
  let t : task :=
    { s1.tasks i with elapsedTime := toULong ((s1.tasks i).elapsedTime + tasksPeriodGCD) }
  { s1 with tasks := Function.update s1.tasks i t }

/-- The function `TickFct_Scheduler`: the loop body for `i = 0, 1, 2`
(`tasksNum` is 3). -/
def TickFct_Scheduler (env : Nat → BusOutcome) (s : State) : State :=
  ([0, 1, 2] : List (Fin 3)).foldl (fun st i => schedulerBody env i st) s

/-- The task functions invoked during one pass of the scheduler from `s`,
in the order of invocation, each with its table index. -/
def passCalls (env : Nat → BusOutcome) (s : State) : List (Fin 3 × TaskFn) :=
  (TickFct_Scheduler env s).callLog.drop s.callLog.length

/-! ## Start-up -/

/-- The global variables as the C start-up code leaves them (all zero, empty
buffers) with empty logs. The task table is not read before `mainThread`
assigns every field of it, and it is given that assigned value here, its
function pointers having no value before. -/
def reset : State where
  output := []
  txBuffer := 0
  rxBuffer0 := 0
  rxBuffer1 := 0
  i2cTransaction := ⟨0, 0, 0, 0⟩
  TimerFlag := 0
  IncrFlag := 0
  DecrFlag := 0
  RoomTemp := 0
  SetTemp := 0
  Heating := 0
  Duration := 0
  tasks := fun i =>
    match i with
    | 0 => ⟨periodTempRead, periodTempRead, TaskFn.TempRead⟩
    | 1 => ⟨periodTempManip, periodTempManip, TaskFn.TempManip⟩
    | 2 => ⟨periodTempReport, periodTempReport, TaskFn.TempReport⟩
  uartLog := []
  busLog := []
  ledLog := []
  callLog := []

/-- The task table as `mainThread` builds it before its loop. -/
def initTasks (s : State) : State :=
  let t0 : Fin 3 → task := Function.update s.tasks 0
    ⟨periodTempRead, periodTempRead, TaskFn.TempRead⟩
  let t1 : Fin 3 → task := Function.update t0 1
    ⟨periodTempManip, periodTempManip, TaskFn.TempManip⟩
  let t2 : Fin 3 → task := Function.update t1 2
    ⟨periodTempReport, periodTempReport, TaskFn.TempReport⟩
  { s with tasks := t2 }

/-- The state in which `mainThread` enters its `while (1)` loop, all drivers
having opened (`initUART` and `initTimer` change no variable of the model). -/
def mainThread_init (env : Nat → BusOutcome) : State :=
  initTasks (initI2C env reset)

/-- States of an execution of `mainThread`, with the number of scheduler
passes completed: the loop runs `TickFct_Scheduler` and lowers `TimerFlag`;
the button and timer callbacks may run between any two passes; every bus
transfer may have any outcome. -/
inductive Reach : Nat → State → Prop
  | init (env : Nat → BusOutcome) : Reach 0 (mainThread_init env)
  | pass (env : Nat → BusOutcome) {k : Nat} {s : State} :
      Reach k s → Reach (k + 1) (TickFct_Scheduler env s)
  | lower {k : Nat} {s : State} : Reach k s → Reach k { s with TimerFlag := 0 }
  | timer {k : Nat} {s : State} : Reach k s → Reach k (timerCallback s)
  | button0 {k : Nat} {s : State} : Reach k s → Reach k (gpioButtonFxn0 s)
  | button1 {k : Nat} {s : State} : Reach k s → Reach k (gpioButtonFxn1 s)

/-- The states reachable in some execution. -/
def Reachable (s : State) : Prop := ∃ k, Reach k s

/-! ## Derived descriptions -/

/-- The entry of a task after one pass of the scheduler, from its entry `t`
before the pass. -/
def tickTask (t : task) : task :=
  ⟨t.period, toULong ((if t.period ≤ t.elapsedTime then 0 else t.elapsedTime) + tasksPeriodGCD),
   t.TickFct⟩

/-- The call made for task `i` in a pass from `s`: one call if it is due. -/
def dueCall (s : State) (i : Fin 3) : List (Fin 3 × TaskFn) :=
  if (s.tasks i).period ≤ (s.tasks i).elapsedTime then [(i, (s.tasks i).TickFct)] else []

/-- The task table at the boundary before pass `k` of an execution. -/
def tableAt (k : Nat) (i : Fin 3) : task :=
  match i with
  | 0 => ⟨500, if k = 0 then 500 else 100 * ((k - 1) % 5 + 1), TaskFn.TempRead⟩
  | 1 => ⟨200, if k = 0 then 200 else 100 * ((k - 1) % 2 + 1), TaskFn.TempManip⟩
  | 2 => ⟨1000, if k = 0 then 1000 else 100 * ((k - 1) % 10 + 1), TaskFn.TempReport⟩

/-- The variables that neither the bus nor the UART code writes. -/
def ctl (s : State) : Int × Nat × Nat × Nat × Int :=
  (s.SetTemp, s.IncrFlag, s.DecrFlag, s.Heating, s.Duration)

/-- The three variables `TickFct_TempManip` reads and writes. -/
def knob (s : State) : Int × Nat × Nat := (s.SetTemp, s.IncrFlag, s.DecrFlag)

/-- The function `TickFct_TempManip` on the three variables it uses. -/
def manipKnob (x : Int × Nat × Nat) : Int × Nat × Nat :=
  let t1 := if x.2.1 ≠ 0 ∧ x.1 < 99 then toInt16 (x.1 + 1) else x.1
  let t2 := if x.2.2 ≠ 0 ∧ t1 > 0 then toInt16 (t1 - 1) else t1
  (t2, 0, 0)

/-! ## The statements of the specification -/

/-- The increment of the specification: one step up, clamped at 99, when the
flag is set. -/
def incStep (flag : Nat) (t : Int) : Int := if flag ≠ 0 then min (t + 1) 99 else t

/-- The decrement of the specification: one step down, clamped at 0, when the
flag is set. -/
def decStep (flag : Nat) (t : Int) : Int := if flag ≠ 0 then max (t - 1) 0 else t

/-- The decoding of the specification: the big-endian 16-bit value of the two
bytes as a two's complement number, divided by 128 and truncated toward
zero. -/
def decodeSpec (b0 b1 : Nat) : Int := Int.tdiv (toInt16 ((b0 * 256 + b1 : Nat) : Int)) 128

/-- The status line of the specification without its terminator:
`<RR,SS,H,DDDD>` with zero-padded decimal fields. -/
def statusLine (room set : Int) (heating : Nat) (count : Int) : List Char :=
  ['<', Nat.digitChar (room.toNat / 10), Nat.digitChar (room.toNat % 10), ',',
   Nat.digitChar (set.toNat / 10), Nat.digitChar (set.toNat % 10), ',',
   Nat.digitChar heating, ',',
   Nat.digitChar (count.toNat / 1000), Nat.digitChar (count.toNat / 100 % 10),
   Nat.digitChar (count.toNat / 10 % 10), Nat.digitChar (count.toNat % 10), '>']

/-! ## Sample environments and states -/

/-- A bus on which every transfer fails with status -1. -/
def busAllFail : Nat → BusOutcome := fun _ => ⟨false, -1, 0, 0⟩

/-- A bus on which every transfer succeeds and delivers the bytes `b0`, `b1`. -/
def busAlways (b0 b1 : Nat) : Nat → BusOutcome := fun _ => ⟨true, 0, b0, b1⟩

/-- A state after start-up with room temperature 20 and setpoint 22. -/
def report0 : State := { reset with RoomTemp := 20, SetTemp := 22 }

/-- The state after the report from `report0`, the room temperature having
become 23. -/
def report1 : State := { TickFct_TempReport report0 with RoomTemp := 23 }

/-- A state after start-up whose last reading was 20 degrees. -/
def lastGood20 : State := { reset with RoomTemp := 20 }

/-- A state with setpoint 50 and both button flags raised. -/
def bothFlags50 : State := { reset with SetTemp := 50, IncrFlag := 1, DecrFlag := 1 }

/-- One press of the increment button followed by two scheduler passes (the
first runs `TickFct_TempManip` when it starts at an even pass count). -/
def pressIncr (s : State) : State :=
  TickFct_Scheduler busAllFail (TickFct_Scheduler busAllFail (gpioButtonFxn1 s))

/-- The execution that starts `mainThread` and presses the increment button
`n` times, two passes apart. -/
def afterPresses : Nat → State
  | 0 => mainThread_init busAllFail
  | n + 1 => pressIncr (afterPresses n)

/-- The state reached by 99 increment presses followed by a press of both
buttons before the next pass. -/
def bothPressedAt99 : State := gpioButtonFxn0 (gpioButtonFxn1 (afterPresses 99))

/-- The last two characters of a text. -/
def lastTwo (l : List Char) : List Char := l.drop (l.length - 2)

/-- The states `s` and `t` agree on every variable and log other than the
three flags `TimerFlag`, `IncrFlag` and `DecrFlag`. -/
def sameButFlags (s t : State) : Prop :=
  t.output = s.output ∧ t.txBuffer = s.txBuffer ∧ t.rxBuffer0 = s.rxBuffer0 ∧
  t.rxBuffer1 = s.rxBuffer1 ∧ t.i2cTransaction = s.i2cTransaction ∧
  t.RoomTemp = s.RoomTemp ∧ t.SetTemp = s.SetTemp ∧ t.Heating = s.Heating ∧
  t.Duration = s.Duration ∧ t.tasks = s.tasks ∧ t.uartLog = s.uartLog ∧
  t.busLog = s.busLog ∧ t.ledLog = s.ledLog ∧ t.callLog = s.callLog

/-- The text of the not-found report of `initI2C`. -/
def notFoundText : List Char := "Temperature sensor not found, contact professor\n\r".toList

/-- The three probe transfers, in the order of the table `sensors`: address,
written byte (the result register), write count 1, read count 0. -/
def probeRequests : List BusRequest := [⟨0x48, 0, 1, 0⟩, ⟨0x49, 0, 1, 0⟩, ⟨0x41, 1, 1, 0⟩]

/-- A state whose report count is the largest `int`. -/
def countAtMax : State := { reset with Duration := 2147483647 }

/-- A state one pass into an execution: failed probe, one button press, a
failed first read. -/
def runA : State := TickFct_Scheduler busAllFail (gpioButtonFxn1 (mainThread_init busAllFail))

/-- A state one pass into another execution: the first candidate answers the
probe, no button is pressed, the first read delivers 0x0C, 0x80. -/
def runB : State :=
  TickFct_Scheduler (busAlways 0x0C 0x80) (mainThread_init (busAlways 0x0C 0x80))

/-- The states of the execution that continues from the state `s0`: scheduler
passes with any bus outcomes, the lowering of `TimerFlag` by the main loop,
and the timer and button callbacks. -/
inductive Later (s0 : State) : State → Prop
  | start : Later s0 s0
  | pass (env : Nat → BusOutcome) {s : State} : Later s0 s → Later s0 (TickFct_Scheduler env s)
  | lower {s : State} : Later s0 s → Later s0 { s with TimerFlag := 0 }
  | timer {s : State} : Later s0 s → Later s0 (timerCallback s)
  | button0 {s : State} : Later s0 s → Later s0 (gpioButtonFxn0 s)
  | button1 {s : State} : Later s0 s → Later s0 (gpioButtonFxn1 s)

/-- The address, the written byte and the write count that the next transfer
of the shared transaction will use. -/
def wire (s : State) : Nat × Nat × Nat :=
  (s.i2cTransaction.slaveAddress, s.txBuffer, s.i2cTransaction.writeCount)

/-- The request of a 2-byte read with the address, written byte and write
count of `s`. -/
def readRequest (s : State) : BusRequest :=
  ⟨s.i2cTransaction.slaveAddress, s.txBuffer, s.i2cTransaction.writeCount, 2⟩

/-- A later state of the execution on a bus where every transfer fails: six
passes and a press of each button. -/
def runFail6 : State :=
  TickFct_Scheduler busAllFail (gpioButtonFxn0 (TickFct_Scheduler busAllFail
    (TickFct_Scheduler busAllFail (TickFct_Scheduler busAllFail (TickFct_Scheduler busAllFail
      (gpioButtonFxn1 (TickFct_Scheduler busAllFail (mainThread_init busAllFail))))))))

/-! ## Frame lemmas -/

theorem DISPLAY_ctl (s : State) (n : Nat) (t : List Char) : ctl (DISPLAY s n t) = ctl s := rfl

theorem I2C_transfer_ctl (env : Nat → BusOutcome) (s : State) :
    ctl (I2C_transfer env s).1 = ctl s := by
  unfold I2C_transfer
  by_cases h : (env s.busLog.length).ok = true <;> simp [h, ctl]

theorem readTemp_ctl (env : Nat → BusOutcome) (s : State) : ctl (readTemp env s).1 = ctl s := by
  unfold readTemp
  dsimp only
  split
  · rw [I2C_transfer_ctl]; rfl
  · rw [DISPLAY_ctl, DISPLAY_ctl, I2C_transfer_ctl]; rfl

theorem TickFct_TempRead_ctl (env : Nat → BusOutcome) (s : State) :
    ctl (TickFct_TempRead env s) = ctl s := readTemp_ctl env s

theorem probeLoop_ctl (env : Nat → BusOutcome) (l : List Sensor) (s : State) :
    ctl (probeLoop env l s).1 = ctl s := by
  induction l generalizing s with
  | nil => rfl
  | cons c rest ih =>
    unfold probeLoop
    dsimp only
    split_ifs
    · rw [DISPLAY_ctl, I2C_transfer_ctl]; rfl
    · rw [ih, DISPLAY_ctl, I2C_transfer_ctl]; rfl

theorem initI2C_ctl (env : Nat → BusOutcome) (s : State) : ctl (initI2C env s) = ctl s := by
  unfold initI2C
  dsimp only
  split <;> (rw [DISPLAY_ctl, probeLoop_ctl]; rfl)

theorem mainThread_init_ctl (env : Nat → BusOutcome) :
    ctl (mainThread_init env) = (0, 0, 0, 0, 0) := by
  show ctl (initI2C env reset) = _
  rw [initI2C_ctl]
  rfl

theorem knob_of_ctl {s t : State} (h : ctl s = ctl t) : knob s = knob t := by
  simp only [ctl, knob, Prod.mk.injEq] at *
  exact ⟨h.1, h.2.1, h.2.2.1⟩

theorem TickFct_TempReport_knob (s : State) : knob (TickFct_TempReport s) = knob s := by
  unfold TickFct_TempReport
  dsimp only
  split_ifs <;> rfl

theorem TickFct_TempManip_knob (s : State) : knob (TickFct_TempManip s) = manipKnob (knob s) := by
  unfold TickFct_TempManip manipKnob knob
  dsimp only
  split_ifs <;> simp_all

theorem callTickFct_knob (env : Nat → BusOutcome) (f : TaskFn) (s : State) :
    knob (callTickFct env f s) = if f = TaskFn.TempManip then manipKnob (knob s) else knob s := by
  cases f
  · exact knob_of_ctl (TickFct_TempRead_ctl env s)
  · exact TickFct_TempManip_knob s
  · exact TickFct_TempReport_knob s

theorem schedulerBody_knob (env : Nat → BusOutcome) (i : Fin 3) (s : State) :
    knob (schedulerBody env i s) =
      if (s.tasks i).period ≤ (s.tasks i).elapsedTime ∧ (s.tasks i).TickFct = TaskFn.TempManip
      then manipKnob (knob s) else knob s := by
  unfold schedulerBody
  dsimp only
  split_ifs with h1 h2 h3
  · show knob (callTickFct env _ _) = _
    rw [callTickFct_knob, if_pos h2.2]; rfl
  · show knob (callTickFct env _ _) = _
    rw [callTickFct_knob, if_neg (fun h => h2 ⟨h1, h⟩)]; rfl
  · exact absurd h3.1 h1
  · rfl

/-! ## The scheduler pass -/

@[simp] theorem DISPLAY_tasks (s : State) (n : Nat) (t : List Char) :
    (DISPLAY s n t).tasks = s.tasks := rfl
@[simp] theorem DISPLAY_callLog (s : State) (n : Nat) (t : List Char) :
    (DISPLAY s n t).callLog = s.callLog := rfl
theorem I2C_transfer_tasks (env : Nat → BusOutcome) (s : State) :
    (I2C_transfer env s).1.tasks = s.tasks := by
  unfold I2C_transfer
  by_cases h : (env s.busLog.length).ok = true <;> simp [h]

theorem I2C_transfer_callLog (env : Nat → BusOutcome) (s : State) :
    (I2C_transfer env s).1.callLog = s.callLog := by
  unfold I2C_transfer
  by_cases h : (env s.busLog.length).ok = true <;> simp [h]

theorem readTemp_tasks (env : Nat → BusOutcome) (s : State) :
    (readTemp env s).1.tasks = s.tasks := by
  unfold readTemp
  dsimp only
  split <;> simp [I2C_transfer_tasks]

theorem readTemp_callLog (env : Nat → BusOutcome) (s : State) :
    (readTemp env s).1.callLog = s.callLog := by
  unfold readTemp
  dsimp only
  split <;> simp [I2C_transfer_callLog]

theorem TickFct_TempManip_tasks (s : State) : (TickFct_TempManip s).tasks = s.tasks := by
  unfold TickFct_TempManip
  dsimp only
  split_ifs <;> rfl

theorem TickFct_TempManip_callLog (s : State) : (TickFct_TempManip s).callLog = s.callLog := by
  unfold TickFct_TempManip
  dsimp only
  split_ifs <;> rfl

theorem TickFct_TempReport_tasks (s : State) : (TickFct_TempReport s).tasks = s.tasks := by
  unfold TickFct_TempReport
  dsimp only
  split_ifs <;> rfl

theorem TickFct_TempReport_callLog (s : State) : (TickFct_TempReport s).callLog = s.callLog := by
  unfold TickFct_TempReport
  dsimp only
  split_ifs <;> rfl

theorem callTickFct_tasks (env : Nat → BusOutcome) (f : TaskFn) (s : State) :
    (callTickFct env f s).tasks = s.tasks := by
  cases f
  · exact readTemp_tasks env s
  · exact TickFct_TempManip_tasks s
  · exact TickFct_TempReport_tasks s

theorem callTickFct_callLog (env : Nat → BusOutcome) (f : TaskFn) (s : State) :
    (callTickFct env f s).callLog = s.callLog := by
  cases f
  · exact readTemp_callLog env s
  · exact TickFct_TempManip_callLog s
  · exact TickFct_TempReport_callLog s

theorem schedulerBody_tasks (env : Nat → BusOutcome) (i : Fin 3) (s : State) :
    (schedulerBody env i s).tasks = Function.update s.tasks i
      ⟨(s.tasks i).period,
       toULong ((if (s.tasks i).period ≤ (s.tasks i).elapsedTime then 0 else (s.tasks i).elapsedTime)
         + tasksPeriodGCD),
       (s.tasks i).TickFct⟩ := by
  unfold schedulerBody
  dsimp only
  split_ifs with h
  · simp [callTickFct_tasks]
  · rfl

theorem schedulerBody_callLog (env : Nat → BusOutcome) (i : Fin 3) (s : State) :
    (schedulerBody env i s).callLog = s.callLog ++
      (if (s.tasks i).period ≤ (s.tasks i).elapsedTime then [(i, (s.tasks i).TickFct)] else []) := by
  unfold schedulerBody
  dsimp only
  split_ifs with h
  · simp [callTickFct_callLog]
  · simp


theorem TickFct_Scheduler_tasks (env : Nat → BusOutcome) (s : State) (i : Fin 3) :
    (TickFct_Scheduler env s).tasks i = tickTask (s.tasks i) := by
  unfold TickFct_Scheduler
  simp only [List.foldl, schedulerBody_tasks, tickTask]
  fin_cases i <;> simp [Function.update]

theorem TickFct_Scheduler_callLog (env : Nat → BusOutcome) (s : State) :
    (TickFct_Scheduler env s).callLog = s.callLog ++ (dueCall s 0 ++ (dueCall s 1 ++ dueCall s 2)) := by
  unfold TickFct_Scheduler
  simp only [List.foldl, schedulerBody_tasks, schedulerBody_callLog, dueCall]
  simp [Function.update]

theorem passCalls_eq (env : Nat → BusOutcome) (s : State) :
    passCalls env s = dueCall s 0 ++ (dueCall s 1 ++ dueCall s 2) := by
  unfold passCalls
  rw [TickFct_Scheduler_callLog]
  simp

theorem mem_passCalls (env : Nat → BusOutcome) (s : State) (i : Fin 3) :
    (i, (s.tasks i).TickFct) ∈ passCalls env s ↔ (s.tasks i).period ≤ (s.tasks i).elapsedTime := by
  rw [passCalls_eq]
  unfold dueCall
  fin_cases i <;> simp

/-! ## The task table along an execution -/

theorem initTasks_tasks (s : State) (i : Fin 3) : (initTasks s).tasks i = tableAt 0 i := by
  fin_cases i <;> simp [initTasks, tableAt, Function.update, periodTempRead, periodTempManip,
    periodTempReport]

theorem tickTask_tableAt (k : Nat) (i : Fin 3) : tickTask (tableAt k i) = tableAt (k + 1) i := by
  rcases Nat.eq_zero_or_pos k with rfl | hk
  · fin_cases i <;> simp [tickTask, tableAt, toULong, ULONG_MAX, tasksPeriodGCD]
  · obtain ⟨j, rfl⟩ : ∃ j, k = j + 1 := ⟨k - 1, by omega⟩
    fin_cases i
    · have h5 : (j + 1) % 5 = if j % 5 = 4 then 0 else j % 5 + 1 := by split_ifs <;> omega
      have hlt : j % 5 < 5 := Nat.mod_lt _ (by decide)
      simp only [tickTask, tableAt, toULong, ULONG_MAX, tasksPeriodGCD, task.mk.injEq, true_and,
        and_true, Nat.add_sub_cancel, Nat.succ_ne_zero, if_false, h5]
      generalize j % 5 = r at *
      split_ifs <;> omega
    · have h5 : (j + 1) % 2 = if j % 2 = 1 then 0 else j % 2 + 1 := by split_ifs <;> omega
      have hlt : j % 2 < 2 := Nat.mod_lt _ (by decide)
      simp only [tickTask, tableAt, toULong, ULONG_MAX, tasksPeriodGCD, task.mk.injEq, true_and,
        and_true, Nat.add_sub_cancel, Nat.succ_ne_zero, if_false, h5]
      generalize j % 2 = r at *
      split_ifs <;> omega
    · have h5 : (j + 1) % 10 = if j % 10 = 9 then 0 else j % 10 + 1 := by split_ifs <;> omega
      have hlt : j % 10 < 10 := Nat.mod_lt _ (by decide)
      simp only [tickTask, tableAt, toULong, ULONG_MAX, tasksPeriodGCD, task.mk.injEq, true_and,
        and_true, Nat.add_sub_cancel, Nat.succ_ne_zero, if_false, h5]
      generalize j % 10 = r at *
      split_ifs <;> omega

theorem Reach_tasks {k : Nat} {s : State} (h : Reach k s) (i : Fin 3) :
    s.tasks i = tableAt k i := by
  induction h with
  | init env => exact initTasks_tasks _ i
  | pass env _ ih => rw [TickFct_Scheduler_tasks, ih, tickTask_tableAt]
  | lower _ ih => exact ih
  | timer _ ih => exact ih
  | button0 _ ih => exact ih
  | button1 _ ih => exact ih

theorem dueCall_Reach {k : Nat} {s : State} (h : Reach k s) :
    dueCall s 0 = (if k % 5 = 0 then [(0, TaskFn.TempRead)] else []) ∧
    dueCall s 1 = (if k % 2 = 0 then [(1, TaskFn.TempManip)] else []) ∧
    dueCall s 2 = (if k % 10 = 0 then [(2, TaskFn.TempReport)] else []) := by
  unfold dueCall
  rw [Reach_tasks h 0, Reach_tasks h 1, Reach_tasks h 2]
  simp only [tableAt]
  refine ⟨?_, ?_, ?_⟩
  · have e : (500 ≤ if k = 0 then 500 else 100 * ((k - 1) % 5 + 1)) ↔ k % 5 = 0 := by
      split_ifs <;> omega
    simp only [e]
  · have e : (200 ≤ if k = 0 then 200 else 100 * ((k - 1) % 2 + 1)) ↔ k % 2 = 0 := by
      split_ifs <;> omega
    simp only [e]
  · have e : (1000 ≤ if k = 0 then 1000 else 100 * ((k - 1) % 10 + 1)) ↔ k % 10 = 0 := by
      split_ifs <;> omega
    simp only [e]

theorem TickFct_Scheduler_knob (env : Nat → BusOutcome) {k : Nat} {s : State} (h : Reach k s) :
    knob (TickFct_Scheduler env s) = if k % 2 = 0 then manipKnob (knob s) else knob s := by
  have t0 := Reach_tasks h 0
  have t1 := Reach_tasks h 1
  have t2 := Reach_tasks h 2
  unfold TickFct_Scheduler
  simp only [List.foldl]
  rw [schedulerBody_knob, schedulerBody_knob, schedulerBody_knob]
  simp only [schedulerBody_tasks, Function.update, t0, t1, t2, tableAt]
  have e : (200 ≤ if k = 0 then 200 else 100 * ((k - 1) % 2 + 1)) ↔ k % 2 = 0 := by
    split_ifs <;> omega
  simp [e]

/-! ## The setpoint -/

theorem TickFct_TempManip_SetTemp (s : State) (h0 : 0 ≤ s.SetTemp) (h1 : s.SetTemp ≤ 99) :
    (TickFct_TempManip s).SetTemp = decStep s.DecrFlag (incStep s.IncrFlag s.SetTemp) := by
  unfold TickFct_TempManip incStep decStep
  dsimp only
  split_ifs <;> simp_all [toInt16] <;> omega

theorem TickFct_TempManip_flags (s : State) :
    (TickFct_TempManip s).IncrFlag = 0 ∧ (TickFct_TempManip s).DecrFlag = 0 := by
  unfold TickFct_TempManip
  dsimp only
  split_ifs <;> simp_all

theorem manipKnob_range (x : Int × Nat × Nat) (h : 0 ≤ x.1 ∧ x.1 ≤ 99) :
    0 ≤ (manipKnob x).1 ∧ (manipKnob x).1 ≤ 99 := by
  unfold manipKnob toInt16
  dsimp only
  split_ifs <;> omega

theorem schedulerBody_range (env : Nat → BusOutcome) (i : Fin 3) (s : State)
    (h : 0 ≤ s.SetTemp ∧ s.SetTemp ≤ 99) :
    0 ≤ (schedulerBody env i s).SetTemp ∧ (schedulerBody env i s).SetTemp ≤ 99 := by
  have e := schedulerBody_knob env i s
  have hk : (schedulerBody env i s).SetTemp = (knob (schedulerBody env i s)).1 := rfl
  rw [hk, e]
  split_ifs
  · exact manipKnob_range _ h
  · exact h

theorem TickFct_Scheduler_range (env : Nat → BusOutcome) (s : State)
    (h : 0 ≤ s.SetTemp ∧ s.SetTemp ≤ 99) :
    0 ≤ (TickFct_Scheduler env s).SetTemp ∧ (TickFct_Scheduler env s).SetTemp ≤ 99 := by
  unfold TickFct_Scheduler
  simp only [List.foldl]
  exact schedulerBody_range env _ _ (schedulerBody_range env _ _ (schedulerBody_range env _ _ h))

theorem Reach_SetTemp {k : Nat} {s : State} (h : Reach k s) : 0 ≤ s.SetTemp ∧ s.SetTemp ≤ 99 := by
  induction h with
  | init env =>
    have e : (mainThread_init env).SetTemp = 0 := congrArg Prod.fst (mainThread_init_ctl env)
    rw [e]
    decide
  | pass env _ ih => exact TickFct_Scheduler_range env _ ih
  | lower _ ih => exact ih
  | timer _ ih => exact ih
  | button0 _ ih => exact ih
  | button1 _ ih => exact ih

theorem pressIncr_spec {n : Nat} {s : State} (h : Reach (2 * n) s) (hn : n < 99)
    (hk : knob s = ((n : Int), 0, 0)) :
    Reach (2 * (n + 1)) (pressIncr s) ∧ knob (pressIncr s) = (((n + 1 : Nat) : Int), 0, 0) := by
  have r1 : Reach (2 * n) (gpioButtonFxn1 s) := Reach.button1 h
  have r2 : Reach (2 * n + 1) (TickFct_Scheduler busAllFail (gpioButtonFxn1 s)) :=
    Reach.pass busAllFail r1
  have r3 : Reach (2 * n + 1 + 1) (pressIncr s) := Reach.pass busAllFail r2
  refine ⟨r3, ?_⟩
  have k1 : knob (gpioButtonFxn1 s) = ((n : Int), 1, 0) := by
    simp only [knob, Prod.mk.injEq] at hk
    simp [knob, gpioButtonFxn1, hk.1, hk.2.2]
  unfold pressIncr
  rw [TickFct_Scheduler_knob busAllFail r2, TickFct_Scheduler_knob busAllFail r1, k1]
  have e1 : (2 * n + 1) % 2 ≠ 0 := by omega
  have e2 : (2 * n) % 2 = 0 := by omega
  rw [if_neg e1, if_pos e2]
  simp only [manipKnob, toInt16, Prod.mk.injEq, and_true]
  push_cast
  split_ifs <;> omega

theorem afterPresses_spec (n : Nat) (hn : n ≤ 99) :
    Reach (2 * n) (afterPresses n) ∧ knob (afterPresses n) = ((n : Int), 0, 0) := by
  induction n with
  | zero => exact ⟨Reach.init busAllFail, knob_of_ctl (show ctl (mainThread_init busAllFail) = ctl reset from mainThread_init_ctl busAllFail)⟩
  | succ m ih =>
    obtain ⟨r, k⟩ := ih (by omega)
    exact pressIncr_spec r (by omega) k

/-! ### Digits -/

theorem toDigits_lt_10 (n : Nat) (h : n < 10) : Nat.toDigits 10 n = [Nat.digitChar n] := by
  have h0 : n / 10 = 0 := by omega
  have h1 : n % 10 = n := by omega
  simp [Nat.toDigits, Nat.toDigitsCore, h0, h1]

theorem toDigits_lt_100 (n : Nat) (h1 : 10 ≤ n) (h : n < 100) :
    Nat.toDigits 10 n = [Nat.digitChar (n / 10), Nat.digitChar (n % 10)] := by
  obtain ⟨m, hm⟩ : ∃ m, n + 1 = m + 2 := ⟨n - 1, by omega⟩
  have a0 : n / 10 ≠ 0 := by omega
  have a1 : n / 10 / 10 = 0 := by omega
  have a2 : n / 10 % 10 = n / 10 := by omega
  rw [Nat.toDigits, hm]
  simp [Nat.toDigitsCore, a0, a1, a2]

theorem toDigits_lt_1000 (n : Nat) (h1 : 100 ≤ n) (h : n < 1000) :
    Nat.toDigits 10 n =
      [Nat.digitChar (n / 100), Nat.digitChar (n / 10 % 10), Nat.digitChar (n % 10)] := by
  obtain ⟨m, hm⟩ : ∃ m, n + 1 = m + 3 := ⟨n - 2, by omega⟩
  have a0 : n / 10 ≠ 0 := by omega
  have a1 : n / 10 / 10 ≠ 0 := by omega
  have a2 : n / 10 / 10 / 10 = 0 := by omega
  have a3 : n / 10 / 10 % 10 = n / 100 := by omega
  rw [Nat.toDigits, hm]
  simp [Nat.toDigitsCore, a0, a1, a2, a3]

theorem toDigits_lt_10000 (n : Nat) (h1 : 1000 ≤ n) (h : n < 10000) :
    Nat.toDigits 10 n =
      [Nat.digitChar (n / 1000), Nat.digitChar (n / 100 % 10), Nat.digitChar (n / 10 % 10),
       Nat.digitChar (n % 10)] := by
  obtain ⟨m, hm⟩ : ∃ m, n + 1 = m + 4 := ⟨n - 3, by omega⟩
  have a0 : n / 10 ≠ 0 := by omega
  have a1 : n / 10 / 10 ≠ 0 := by omega
  have a2 : n / 10 / 10 / 10 ≠ 0 := by omega
  have a3 : n / 10 / 10 / 10 / 10 = 0 := by omega
  have a4 : n / 10 / 10 / 10 % 10 = n / 1000 := by omega
  have a5 : n / 10 / 10 % 10 = n / 100 % 10 := by omega
  rw [Nat.toDigits, hm]
  simp [Nat.toDigitsCore, a0, a1, a2, a3, a4, a5]

theorem fmt_d_2 (x : Int) (h0 : 0 ≤ x) (h : x ≤ 99) :
    fmt_d 2 x = [Nat.digitChar (x.toNat / 10), Nat.digitChar (x.toNat % 10)] := by
  obtain ⟨n, rfl⟩ := Int.eq_ofNat_of_zero_le h0
  have hn : n < 100 := by omega
  have hneg : ¬ ((n : Int) < 0) := by omega
  unfold fmt_d
  simp only [Int.natAbs_ofNat, Int.toNat_ofNat, hneg, if_false]
  by_cases h10 : n < 10
  · have a0 : n / 10 = 0 := by omega
    have a1 : n % 10 = n := by omega
    rw [toDigits_lt_10 n h10, a0, a1]
    rfl
  · rw [toDigits_lt_100 n (by omega) hn]
    rfl

theorem fmt_d_4 (x : Int) (h0 : 0 ≤ x) (h : x ≤ 9999) :
    fmt_d 4 x = [Nat.digitChar (x.toNat / 1000), Nat.digitChar (x.toNat / 100 % 10),
      Nat.digitChar (x.toNat / 10 % 10), Nat.digitChar (x.toNat % 10)] := by
  obtain ⟨n, rfl⟩ := Int.eq_ofNat_of_zero_le h0
  have hn : n < 10000 := by omega
  have hneg : ¬ ((n : Int) < 0) := by omega
  unfold fmt_d
  simp only [Int.natAbs_ofNat, Int.toNat_ofNat, hneg, if_false]
  by_cases h10 : n < 10
  · have a0 : n / 1000 = 0 := by omega
    have a1 : n / 100 % 10 = 0 := by omega
    have a2 : n / 10 % 10 = 0 := by omega
    have a3 : n % 10 = n := by omega
    rw [toDigits_lt_10 n h10, a0, a1, a2, a3]
    rfl
  · by_cases h100 : n < 100
    · have a0 : n / 1000 = 0 := by omega
      have a1 : n / 100 % 10 = 0 := by omega
      have a2 : n / 10 % 10 = n / 10 := by omega
      rw [toDigits_lt_100 n (by omega) h100, a0, a1, a2]
      rfl
    · by_cases h1000 : n < 1000
      · have a0 : n / 1000 = 0 := by omega
        have a1 : n / 100 % 10 = n / 100 := by omega
        rw [toDigits_lt_1000 n (by omega) h1000, a0, a1]
        rfl
      · rw [toDigits_lt_10000 n (by omega) hn]
        rfl

theorem reportText_eq (r t : Int) (h : Nat) (d : Int) (hr0 : 0 ≤ r) (hr1 : r ≤ 99)
    (ht0 : 0 ≤ t) (ht1 : t ≤ 99) (hh : h = 0 ∨ h = 1) (hd0 : 0 ≤ d) (hd1 : d ≤ 9999) :
    reportText r t h d = statusLine r t h d ++ [Char.ofNat 10, Char.ofNat 13] := by
  unfold reportText statusLine
  rw [fmt_d_2 r hr0 hr1, fmt_d_2 t ht0 ht1, fmt_d_4 d hd0 hd1]
  rcases hh with rfl | rfl <;> rfl

/-! ## Claims -/

/-- C1: in a task table where no `elapsedTime` is within 100 of `ULONG_MAX`,
one pass of `TickFct_Scheduler` invokes the function of task `i` if and only
if its `elapsedTime` at entry is at least its `period`, and afterwards its
`elapsedTime` is 100 if it was invoked and the entry value plus 100 if not. -/
theorem TickFct_Scheduler_one_pass (env : Nat → BusOutcome) (s : State)
    (hmax : ∀ i, (s.tasks i).elapsedTime + 100 ≤ ULONG_MAX) (i : Fin 3) :
    ((i, (s.tasks i).TickFct) ∈ passCalls env s ↔ (s.tasks i).elapsedTime ≥ (s.tasks i).period) ∧
    ((TickFct_Scheduler env s).tasks i).elapsedTime =
      (if (s.tasks i).elapsedTime ≥ (s.tasks i).period then 100
       else (s.tasks i).elapsedTime + 100) := by
  refine ⟨mem_passCalls env s i, ?_⟩
  rw [TickFct_Scheduler_tasks]
  have h := hmax i
  unfold tickTask toULong tasksPeriodGCD
  unfold ULONG_MAX at *
  dsimp only
  split_ifs <;> omega

/-- C1 at the start-up table, task 0: it is due, is invoked, and ends the
pass with `elapsedTime` 100. -/
theorem TickFct_Scheduler_one_pass_witness :
    (∀ i, ((mainThread_init busAllFail).tasks i).elapsedTime + 100 ≤ ULONG_MAX) ∧
    (((0 : Fin 3), ((mainThread_init busAllFail).tasks 0).TickFct)
        ∈ passCalls busAllFail (mainThread_init busAllFail) ↔
      ((mainThread_init busAllFail).tasks 0).elapsedTime
        ≥ ((mainThread_init busAllFail).tasks 0).period) ∧
    ((TickFct_Scheduler busAllFail (mainThread_init busAllFail)).tasks 0).elapsedTime =
      (if ((mainThread_init busAllFail).tasks 0).elapsedTime
          ≥ ((mainThread_init busAllFail).tasks 0).period then 100
       else ((mainThread_init busAllFail).tasks 0).elapsedTime + 100) :=
  ⟨by decide, TickFct_Scheduler_one_pass busAllFail (mainThread_init busAllFail) (by decide) 0⟩

/-- C2: in every execution from the table built by `mainThread`, pass number
`k` (from 0) invokes `TickFct_TempRead` iff `k % 5 = 0`, `TickFct_TempManip`
iff `k % 2 = 0` and `TickFct_TempReport` iff `k % 10 = 0`; the functions
invoked are exactly those, in table order, so all three run in pass 0. -/
theorem passCalls_periodic (env : Nat → BusOutcome) (k : Nat) (s : State) (h : Reach k s) :
    (TaskFn.TempRead ∈ (passCalls env s).map Prod.snd ↔ k % 5 = 0) ∧
    (TaskFn.TempManip ∈ (passCalls env s).map Prod.snd ↔ k % 2 = 0) ∧
    (TaskFn.TempReport ∈ (passCalls env s).map Prod.snd ↔ k % 10 = 0) ∧
    (passCalls env s).map Prod.snd =
      (if k % 5 = 0 then [TaskFn.TempRead] else []) ++
      ((if k % 2 = 0 then [TaskFn.TempManip] else []) ++
       (if k % 10 = 0 then [TaskFn.TempReport] else [])) := by
  obtain ⟨h0, h1, h2⟩ := dueCall_Reach h
  rw [passCalls_eq, h0, h1, h2]
  refine ⟨?_, ?_, ?_, ?_⟩ <;> split_ifs <;> simp_all

/-- C2 at pass 0 of an execution: all three task functions run. -/
theorem passCalls_periodic_witness :
    Reach 0 (mainThread_init busAllFail) ∧
    (passCalls busAllFail (mainThread_init busAllFail)).map Prod.snd =
      [TaskFn.TempRead, TaskFn.TempManip, TaskFn.TempReport] :=
  ⟨Reach.init busAllFail,
   (passCalls_periodic busAllFail 0 (mainThread_init busAllFail) (Reach.init busAllFail)).2.2.2⟩

/-- C3: in every reachable state, the task functions invoked in one scheduler
pass form a subsequence of TempRead, TempManip, TempReport in that order. -/
theorem passCalls_in_table_order (env : Nat → BusOutcome) (s : State) (h : Reachable s) :
    List.Sublist ((passCalls env s).map Prod.snd)
      [TaskFn.TempRead, TaskFn.TempManip, TaskFn.TempReport] := by
  obtain ⟨k, hk⟩ := h
  obtain ⟨h0, h1, h2⟩ := dueCall_Reach hk
  rw [passCalls_eq, h0, h1, h2]
  split_ifs <;> decide

/-- C3 at the start of an execution, where all three tasks are due: the calls
of the pass are TempRead, TempManip, TempReport in that order. -/
theorem passCalls_in_table_order_witness :
    Reachable (mainThread_init busAllFail) ∧
    List.Sublist ((passCalls busAllFail (mainThread_init busAllFail)).map Prod.snd)
      [TaskFn.TempRead, TaskFn.TempManip, TaskFn.TempReport] :=
  ⟨⟨0, Reach.init busAllFail⟩,
   passCalls_in_table_order busAllFail (mainThread_init busAllFail) ⟨0, Reach.init busAllFail⟩⟩

/-- C4, as stated, fails: the state `bothPressedAt99` is reachable, has the
increment flag set and the setpoint at 99, and `TickFct_TempManip` leaves the
setpoint at 98, because the decrement flag is set as well. -/
theorem TickFct_TempManip_both_flags_at_99 :
    Reachable bothPressedAt99 ∧ bothPressedAt99.IncrFlag ≠ 0 ∧ bothPressedAt99.SetTemp = 99 ∧
    (TickFct_TempManip bothPressedAt99).SetTemp = 98 := by
  obtain ⟨r, k⟩ := afterPresses_spec 99 (le_refl 99)
  have hk : knob bothPressedAt99 = (99, 1, 1) := by
    simp only [knob, Prod.mk.injEq] at k
    simp [knob, bothPressedAt99, gpioButtonFxn0, gpioButtonFxn1, k.1]
  have hm : knob (TickFct_TempManip bothPressedAt99) = (98, 0, 0) := by
    rw [TickFct_TempManip_knob, hk]
    decide
  simp only [knob, Prod.mk.injEq] at hk hm
  exact ⟨⟨2 * 99, Reach.button0 (Reach.button1 r)⟩, by rw [hk.2.1]; decide, hk.1, hm.1⟩

/-- C4, amended: in every reachable state the setpoint is in [0, 99]; with
the increment flag set and the decrement flag clear at setpoint 99,
`TickFct_TempManip` leaves the setpoint at 99; with the decrement flag set at
setpoint 0 it leaves the setpoint at 0 and clears the flag. -/
theorem SetTemp_clamped :
    (∀ s, Reachable s → 0 ≤ s.SetTemp ∧ s.SetTemp ≤ 99) ∧
    (∀ s : State, s.IncrFlag ≠ 0 → s.DecrFlag = 0 → s.SetTemp = 99 →
      (TickFct_TempManip s).SetTemp = 99) ∧
    (∀ s : State, s.DecrFlag ≠ 0 → s.SetTemp = 0 →
      (TickFct_TempManip s).SetTemp = 0 ∧ (TickFct_TempManip s).DecrFlag = 0) := by
  refine ⟨?_, ?_, ?_⟩
  · rintro s ⟨k, h⟩
    exact Reach_SetTemp h
  · intro s hi hd ht
    rw [TickFct_TempManip_SetTemp s (by omega) (by omega), ht, hd]
    simp [incStep, decStep, hi]
  · intro s hd ht
    refine ⟨?_, (TickFct_TempManip_flags s).2⟩
    rw [TickFct_TempManip_SetTemp s (by omega) (by omega), ht]
    unfold incStep decStep
    split_ifs <;> omega

/-- C4, amended, at the reachable state `bothPressedAt99`: its setpoint is in
[0, 99]. -/
theorem SetTemp_clamped_witness :
    Reachable bothPressedAt99 ∧ 0 ≤ bothPressedAt99.SetTemp ∧ bothPressedAt99.SetTemp ≤ 99 :=
  ⟨⟨2 * 99, Reach.button0 (Reach.button1 (afterPresses_spec 99 (le_refl 99)).1)⟩,
   SetTemp_clamped.1 bothPressedAt99
     ⟨2 * 99, Reach.button0 (Reach.button1 (afterPresses_spec 99 (le_refl 99)).1)⟩⟩

/-- C5: with the setpoint in [0, 99], one call of `TickFct_TempManip` leaves
both flags clear and sets the setpoint to `dec (inc SetTemp)`, each step
applied when its flag was set at entry and clamped at 99 and 0. -/
theorem TickFct_TempManip_step (s : State) (h0 : 0 ≤ s.SetTemp) (h1 : s.SetTemp ≤ 99) :
    (TickFct_TempManip s).IncrFlag = 0 ∧ (TickFct_TempManip s).DecrFlag = 0 ∧
    (TickFct_TempManip s).SetTemp = decStep s.DecrFlag (incStep s.IncrFlag s.SetTemp) :=
  ⟨(TickFct_TempManip_flags s).1, (TickFct_TempManip_flags s).2,
   TickFct_TempManip_SetTemp s h0 h1⟩

/-- C5 at setpoint 50 with both flags raised: both are cleared and the
setpoint is 50 again. -/
theorem TickFct_TempManip_step_witness :
    0 ≤ bothFlags50.SetTemp ∧ bothFlags50.SetTemp ≤ 99 ∧
    (TickFct_TempManip bothFlags50).IncrFlag = 0 ∧ (TickFct_TempManip bothFlags50).DecrFlag = 0 ∧
    (TickFct_TempManip bothFlags50).SetTemp = 50 :=
  ⟨by decide, by decide,
   (TickFct_TempManip_step bothFlags50 (by decide) (by decide)).1,
   (TickFct_TempManip_step bothFlags50 (by decide) (by decide)).2.1,
   (TickFct_TempManip_step bothFlags50 (by decide) (by decide)).2.2.trans (by decide)⟩

/-- C6: after one call of `TickFct_TempReport` the heating indicator is 1 iff
`RoomTemp < SetTemp` held at entry (and 0 otherwise), the level written to the
heater pin is ON in that case and OFF otherwise, equal temperatures give
heater off, and neither depends on the previous value of `Heating`. -/
theorem TickFct_TempReport_heater (s : State) :
    ((TickFct_TempReport s).Heating = 1 ↔ s.RoomTemp < s.SetTemp) ∧
    (TickFct_TempReport s).Heating = (if s.RoomTemp < s.SetTemp then 1 else 0) ∧
    (TickFct_TempReport s).ledLog = s.ledLog ++
      [if s.RoomTemp < s.SetTemp then LedLevel.CONFIG_GPIO_LED_ON
       else LedLevel.CONFIG_GPIO_LED_OFF] ∧
    (TickFct_TempReport { s with RoomTemp := s.SetTemp }).Heating = 0 ∧
    (TickFct_TempReport { s with RoomTemp := s.SetTemp }).ledLog =
      s.ledLog ++ [LedLevel.CONFIG_GPIO_LED_OFF] ∧
    ∀ h : Nat,
      (TickFct_TempReport { s with Heating := h }).Heating = (TickFct_TempReport s).Heating ∧
      (TickFct_TempReport { s with Heating := h }).ledLog = (TickFct_TempReport s).ledLog := by
  unfold TickFct_TempReport
  dsimp only
  refine ⟨?_, ?_, ?_, ?_, ?_, ?_⟩
  · split_ifs <;> simp_all [DISPLAY]
  · split_ifs <;> simp_all [DISPLAY]
  · split_ifs <;> simp_all [DISPLAY]
  · simp [DISPLAY]
  · simp [DISPLAY]
  · intro h
    split_ifs <;> simp_all [DISPLAY]

/-- C7 fails on the code: for the received bytes 0xFF, 0xFF (the raw value -1,
a reading just below zero) `readTemp` returns -4096, while the decoding of the
specification gives 0. -/
theorem readTemp_small_negative :
    (busAlways 0xFF 0xFF reset.busLog.length).ok = true ∧
    (readTemp (busAlways 0xFF 0xFF) reset).2 = -4096 ∧ decodeSpec 0xFF 0xFF = 0 := by
  decide

/-- C8, as stated, fails: for the received bytes 0xE0, 0x00 on a successful
transfer `readTemp` does not return -32. -/
theorem readTemp_E000_not_minus_32 :
    (busAlways 0xE0 0x00 reset.busLog.length).ok = true ∧
    (readTemp (busAlways 0xE0 0x00) reset).2 ≠ -32 := by
  decide

/-- C8, amended: for the received bytes 0xE0, 0x00 on a successful transfer,
in any state and with any status code, `readTemp` returns -64. -/
theorem readTemp_E000 (s : State) (status : Int) :
    (readTemp (fun _ => ⟨true, status, 0xE0, 0x00⟩) s).2 = -64 := by
  unfold readTemp I2C_transfer
  simp
  decide

/-- C9, as stated, fails: from a state whose last reading was 20, a failed
transfer leaves `RoomTemp` at 0, not at 20. -/
theorem TickFct_TempRead_failure_overwrites :
    (busAllFail lastGood20.busLog.length).ok = false ∧ lastGood20.RoomTemp = 20 ∧
    (TickFct_TempRead busAllFail lastGood20).RoomTemp ≠ lastGood20.RoomTemp := by
  decide

/-- C9, amended: if the bus transfer of the periodic read fails, then after
`TickFct_TempRead` returns `RoomTemp` is 0, the value `readTemp` returns when
the transfer fails. -/
theorem TickFct_TempRead_failed_transfer (env : Nat → BusOutcome) (s : State)
    (h : (env s.busLog.length).ok = false) : (TickFct_TempRead env s).RoomTemp = 0 := by
  show (readTemp env s).2 = 0
  unfold readTemp I2C_transfer
  simp [h]

/-- C9, amended, from the state whose last reading was 20. -/
theorem TickFct_TempRead_failed_transfer_witness :
    (busAllFail lastGood20.busLog.length).ok = false ∧
    (TickFct_TempRead busAllFail lastGood20).RoomTemp = 0 :=
  ⟨by decide, TickFct_TempRead_failed_transfer busAllFail lastGood20 (by decide)⟩

/-- C10: with room temperature and setpoint in [0, 99] and report count in
[0, 9999], the text `TickFct_TempReport` formats is `<RR,SS,H,DDDD>` followed
by the two characters of the line terminator, where `H` is the heating
indicator just computed (0 or 1) and `DDDD` the count before its increment;
this text and its length 16 are what is handed to the UART. -/
theorem TickFct_TempReport_line (s : State) (hr0 : 0 ≤ s.RoomTemp) (hr1 : s.RoomTemp ≤ 99)
    (ht0 : 0 ≤ s.SetTemp) (ht1 : s.SetTemp ≤ 99) (hd0 : 0 ≤ s.Duration)
    (hd1 : s.Duration ≤ 9999) :
    ((TickFct_TempReport s).Heating = 0 ∨ (TickFct_TempReport s).Heating = 1) ∧
    (TickFct_TempReport s).output =
      statusLine s.RoomTemp s.SetTemp (TickFct_TempReport s).Heating s.Duration
        ++ [Char.ofNat 10, Char.ofNat 13] ∧
    (TickFct_TempReport s).uartLog = s.uartLog ++ [⟨(TickFct_TempReport s).output, 16⟩] := by
  unfold TickFct_TempReport
  dsimp only
  split_ifs with h1 h2
  · simp only [DISPLAY, snprintf]
    rw [reportText_eq _ _ 1 _ hr0 hr1 ht0 ht1 (Or.inr rfl) hd0 hd1]
    refine ⟨by simp, rfl, rfl⟩
  · simp only [DISPLAY, snprintf]
    rw [reportText_eq _ _ 0 _ hr0 hr1 ht0 ht1 (Or.inl rfl) hd0 hd1]
    refine ⟨by simp, rfl, rfl⟩
  · omega

/-- C10 on the scenario of the specification: from room 20, setpoint 22 and
count 0 the report formats `<20,22,1,0000>`, and after the room temperature
has become 23 the next report formats `<23,22,0,0001>`. -/
theorem TickFct_TempReport_line_witness :
    (0 ≤ report0.RoomTemp ∧ report0.RoomTemp ≤ 99 ∧ 0 ≤ report0.SetTemp ∧ report0.SetTemp ≤ 99 ∧
      0 ≤ report0.Duration ∧ report0.Duration ≤ 9999) ∧
    (TickFct_TempReport report0).output =
      "<20,22,1,0000>".toList ++ [Char.ofNat 10, Char.ofNat 13] ∧
    (TickFct_TempReport report1).output =
      "<23,22,0,0001>".toList ++ [Char.ofNat 10, Char.ofNat 13] :=
  ⟨by decide,
   (TickFct_TempReport_line report0 (by decide) (by decide) (by decide) (by decide) (by decide)
      (by decide)).2.1.trans (by decide),
   (TickFct_TempReport_line report1 (by decide) (by decide) (by decide) (by decide) (by decide)
      (by decide)).2.1.trans (by decide)⟩

/-! ## Further lemmas: report text, report count, probe, decoding -/

theorem toDigitsCore_length_le (fuel : Nat) :
    ∀ (k n : Nat) (ds : List Char), n < 10 ^ (k + 1) →
      (Nat.toDigitsCore 10 fuel n ds).length ≤ ds.length + (k + 1) := by
  induction fuel with
  | zero => intro k n ds _; simp [Nat.toDigitsCore]
  | succ f ih =>
    intro k n ds hn
    simp only [Nat.toDigitsCore]
    split_ifs with h0
    · simp
    · cases k with
      | zero => omega
      | succ j =>
        have hj : n / 10 < 10 ^ (j + 1) := by
          rw [Nat.div_lt_iff_lt_mul (by decide)]
          rw [pow_succ] at hn
          exact hn
        have := ih j (n / 10) (Nat.digitChar (n % 10) :: ds) hj
        simp only [List.length_cons] at this
        omega

theorem fmt_d_length_le (w k : Nat) (n : Int) (hn : n.natAbs < 10 ^ (k + 1)) :
    (fmt_d w n).length ≤ max w (k + 2) := by
  have h := toDigitsCore_length_le (n.natAbs + 1) k n.natAbs [] hn
  simp only [List.length_nil, Nat.zero_add] at h
  unfold fmt_d
  simp only [Nat.toDigits]
  split_ifs
  · simp only [List.length_cons, List.length_append, List.length_replicate]
    omega
  · simp only [List.length_append, List.length_replicate]
    omega

theorem lastTwo_append_pair (l : List Char) (a b : Char) : lastTwo (l ++ [a, b]) = [a, b] := by
  simp [lastTwo]

theorem reportText_length_le (r t : Int) (h : Nat) (d : Int)
    (hr0 : -32768 ≤ r) (hr1 : r ≤ 32767) (ht0 : -32768 ≤ t) (ht1 : t ≤ 32767) (hh : h ≤ 1)
    (hd0 : -2147483648 ≤ d) (hd1 : d ≤ 2147483647) : (reportText r t h d).length ≤ 63 := by
  have a := fmt_d_length_le 2 4 r (by omega)
  have b := fmt_d_length_le 2 4 t (by omega)
  have c := fmt_d_length_le 0 0 (h : Int) (by omega)
  have e := fmt_d_length_le 4 9 d (by omega)
  unfold reportText
  simp only [List.length_cons, List.length_append, String.toList]
  simp only [max_def] at a b c e
  split_ifs at a b c e <;> simp <;> omega

theorem reportText_ends (r t : Int) (h : Nat) (d : Int) :
    ∃ body, reportText r t h d = body ++ ['>', Char.ofNat 10, Char.ofNat 13] := by
  refine ⟨'<' :: (fmt_d 2 r ++ ',' :: (fmt_d 2 t ++ ',' :: (fmt_d 0 h ++ ',' :: fmt_d 4 d))), ?_⟩
  simp [reportText]

theorem TickFct_TempReport_output (s : State)
    (hr0 : -32768 ≤ s.RoomTemp) (hr1 : s.RoomTemp ≤ 32767)
    (ht0 : -32768 ≤ s.SetTemp) (ht1 : s.SetTemp ≤ 32767)
    (hd0 : -2147483648 ≤ s.Duration) (hd1 : s.Duration ≤ 2147483647) :
    (TickFct_TempReport s).output =
      reportText s.RoomTemp s.SetTemp (if s.RoomTemp < s.SetTemp then 1 else 0) s.Duration := by
  unfold TickFct_TempReport
  dsimp only
  split_ifs with h1 h2
  · simp only [DISPLAY, snprintf]
    exact List.take_of_length_le
      (reportText_length_le _ _ 1 _ hr0 hr1 ht0 ht1 (le_refl 1) hd0 hd1)
  · simp only [DISPLAY, snprintf]
    exact List.take_of_length_le
      (reportText_length_le _ _ 0 _ hr0 hr1 ht0 ht1 (Nat.zero_le 1) hd0 hd1)
  · omega

theorem TickFct_TempReport_Duration (s : State) :
    (TickFct_TempReport s).Duration = toInt32 (s.Duration + 1) := by
  unfold TickFct_TempReport
  dsimp only
  split_ifs <;> rfl

theorem TickFct_TempManip_rest (s : State) :
    (TickFct_TempManip s).RoomTemp = s.RoomTemp ∧ (TickFct_TempManip s).Heating = s.Heating ∧
    (TickFct_TempManip s).Duration = s.Duration := by
  unfold TickFct_TempManip
  dsimp only
  split_ifs <;> exact ⟨rfl, rfl, rfl⟩

theorem TickFct_TempRead_Duration (env : Nat → BusOutcome) (s : State) :
    (TickFct_TempRead env s).Duration = s.Duration :=
  congrArg (fun x => x.2.2.2.2) (TickFct_TempRead_ctl env s)

theorem callTickFct_Duration (env : Nat → BusOutcome) (f : TaskFn) (s : State) :
    (callTickFct env f s).Duration =
      if f = TaskFn.TempReport then toInt32 (s.Duration + 1) else s.Duration := by
  cases f
  · exact TickFct_TempRead_Duration env s
  · exact (TickFct_TempManip_rest s).2.2
  · exact TickFct_TempReport_Duration s

theorem schedulerBody_Duration (env : Nat → BusOutcome) (i : Fin 3) (s : State) :
    (schedulerBody env i s).Duration =
      if (s.tasks i).period ≤ (s.tasks i).elapsedTime ∧ (s.tasks i).TickFct = TaskFn.TempReport
      then toInt32 (s.Duration + 1) else s.Duration := by
  unfold schedulerBody
  dsimp only
  split_ifs with h1 h2 h3
  · show (callTickFct env _ _).Duration = _
    rw [callTickFct_Duration, if_pos h2.2]
  · show (callTickFct env _ _).Duration = _
    rw [callTickFct_Duration, if_neg (fun h => h2 ⟨h1, h⟩)]
  · exact absurd h3.1 h1
  · rfl

theorem TickFct_Scheduler_Duration (env : Nat → BusOutcome) {k : Nat} {s : State}
    (h : Reach k s) :
    (TickFct_Scheduler env s).Duration =
      if k % 10 = 0 then toInt32 (s.Duration + 1) else s.Duration := by
  have t0 := Reach_tasks h 0
  have t1 := Reach_tasks h 1
  have t2 := Reach_tasks h 2
  unfold TickFct_Scheduler
  simp only [List.foldl]
  rw [schedulerBody_Duration, schedulerBody_Duration, schedulerBody_Duration]
  simp only [schedulerBody_tasks, Function.update, t0, t1, t2, tableAt]
  have e : (1000 ≤ if k = 0 then 1000 else 100 * ((k - 1) % 10 + 1)) ↔ k % 10 = 0 := by
    split_ifs <;> omega
  simp [e]

theorem Reach_Duration {k : Nat} {s : State} (h : Reach k s) :
    s.Duration = toInt32 (((k + 9) / 10 : Nat) : Int) := by
  induction h with
  | init env =>
    have e : (mainThread_init env).Duration = 0 :=
      congrArg (fun x => x.2.2.2.2) (mainThread_init_ctl env)
    rw [e]
    decide
  | @pass env k s hr ih =>
    rw [TickFct_Scheduler_Duration env hr, ih]
    unfold toInt32
    split_ifs <;> omega
  | lower _ ih => exact ih
  | timer _ ih => exact ih
  | button0 _ ih => exact ih
  | button1 _ ih => exact ih

theorem Reach_Duration_range {k : Nat} {s : State} (h : Reach k s) :
    -2147483648 ≤ s.Duration ∧ s.Duration ≤ 2147483647 := by
  rw [Reach_Duration h]
  unfold toInt32
  omega

theorem gpioButtonFxn1_iterate (s : State) (n : Nat) :
    gpioButtonFxn1^[n + 1] s = gpioButtonFxn1 s := by
  induction n with
  | zero => rfl
  | succ m ih => rw [Function.iterate_succ_apply', ih]; rfl

theorem gpioButtonFxn0_iterate (s : State) (n : Nat) :
    gpioButtonFxn0^[n + 1] s = gpioButtonFxn0 s := by
  induction n with
  | zero => rfl
  | succ m ih => rw [Function.iterate_succ_apply', ih]; rfl

theorem manipKnob_step (x : Int × Nat × Nat) (h0 : -32768 ≤ x.1) (h1 : x.1 ≤ 32767) :
    x.1 - 1 ≤ (manipKnob x).1 ∧ (manipKnob x).1 ≤ x.1 + 1 := by
  unfold manipKnob toInt16
  dsimp only
  split_ifs <;> omega

theorem TickFct_TempReport_RoomTemp (s : State) :
    (TickFct_TempReport s).RoomTemp = s.RoomTemp := by
  unfold TickFct_TempReport
  dsimp only
  split_ifs <;> rfl

theorem tableAt_bounds (k : Nat) (i : Fin 3) :
    100 ∣ (tableAt k i).elapsedTime ∧ 100 ≤ (tableAt k i).elapsedTime ∧
    (tableAt k i).elapsedTime ≤ (tableAt k i).period ∧
    (k = 0 → (tableAt k i).elapsedTime = (tableAt k i).period) ∧
    (tableAt k i).period = (tableAt 0 i).period ∧
    (tableAt k i).TickFct = (tableAt 0 i).TickFct := by
  fin_cases i <;> simp only [tableAt] <;> split_ifs <;>
    refine ⟨?_, ?_, ?_, ?_, ?_, ?_⟩ <;>
    first
      | trivial
      | omega

theorem readTemp_busLog (env : Nat → BusOutcome) (s : State) :
    (readTemp env s).1.busLog = s.busLog ++
      [⟨s.i2cTransaction.slaveAddress, s.txBuffer, s.i2cTransaction.writeCount, 2⟩] := by
  unfold readTemp I2C_transfer
  by_cases h : (env s.busLog.length).ok = true <;> simp [h, DISPLAY]

theorem initI2C_not_found (env : Nat → BusOutcome) (s : State)
    (h0 : (env s.busLog.length).ok = false) (h1 : (env (s.busLog.length + 1)).ok = false)
    (h2 : (env (s.busLog.length + 2)).ok = false) :
    (initI2C env s).output = notFoundText ∧
    (initI2C env s).i2cTransaction.slaveAddress = 0x41 ∧ (initI2C env s).txBuffer = 1 ∧
    (initI2C env s).i2cTransaction.writeCount = 1 := by
  simp [initI2C, probeLoop, sensors, I2C_transfer, DISPLAY, snprintf, notFoundText, h0, h1, h2]

theorem shift_or_bytes (b0 b1 : Nat) (h1 : b1 < 256) : (b0 <<< 8 ||| b1) = b0 * 256 + b1 := by
  rw [Nat.shiftLeft_eq, Nat.mul_comm b0 (2 ^ 8)]
  exact (Nat.mul_add_lt_is_or (i := 8) (by simpa using h1) b0).symm

set_option maxRecDepth 100000 in
theorem msb_set_iff (b0 : Nat) (h : b0 < 256) : (b0 &&& 0x80 ≠ 0) ↔ 128 ≤ b0 := by
  interval_cases b0 <;> decide

theorem tdiv_128_of_nonneg (v : Int) (h : 0 ≤ v) : Int.tdiv v 128 = v / 128 :=
  Int.tdiv_eq_ediv h (by decide)

theorem tdiv_128_of_neg (v : Int) (h : v < 0) : Int.tdiv v 128 = -((-v) / 128) := by
  have e : v = -(-v) := by omega
  rw [e, Int.neg_tdiv, Int.tdiv_eq_ediv (by omega) (by decide)]
  simp

set_option maxRecDepth 100000 in
theorem orInt_F000_of_neg (t : Int) (h0 : -256 ≤ t) (h1 : t ≤ -1) :
    toInt16 (orInt t 0xF000) = t := by
  interval_cases t <;> rfl

theorem readTemp_ok (env : Nat → BusOutcome) (s : State) (hok : (env s.busLog.length).ok = true) :
    (readTemp env s).2 =
      (if (env s.busLog.length).rx0 % 256 &&& 0x80 ≠ 0 then
        toInt16 (orInt (toInt16 (Int.tdiv (toInt16 ((((env s.busLog.length).rx0 % 256) <<< 8 |||
          (env s.busLog.length).rx1 % 256 : Nat) : Int)) 128)) 0xF000)
       else toInt16 (Int.tdiv (toInt16 ((((env s.busLog.length).rx0 % 256) <<< 8 |||
          (env s.busLog.length).rx1 % 256 : Nat) : Int)) 128)) := by
  unfold readTemp I2C_transfer
  simp [hok]

/-! ## The shared transaction along an execution -/

theorem readTemp_wire (env : Nat → BusOutcome) (s : State) : wire (readTemp env s).1 = wire s := by
  unfold readTemp I2C_transfer
  by_cases h : (env s.busLog.length).ok = true <;> simp [h, DISPLAY, wire]

theorem TickFct_TempManip_wire (s : State) :
    wire (TickFct_TempManip s) = wire s ∧ (TickFct_TempManip s).busLog = s.busLog := by
  unfold TickFct_TempManip
  dsimp only
  split_ifs <;> exact ⟨rfl, rfl⟩

theorem TickFct_TempReport_wire (s : State) :
    wire (TickFct_TempReport s) = wire s ∧ (TickFct_TempReport s).busLog = s.busLog := by
  unfold TickFct_TempReport
  dsimp only
  split_ifs <;> exact ⟨rfl, rfl⟩

theorem readRequest_of_wire {s t : State} (h : wire s = wire t) : readRequest s = readRequest t := by
  simp only [wire, Prod.mk.injEq] at h
  simp [readRequest, h.1, h.2.1, h.2.2]

theorem callTickFct_wire (env : Nat → BusOutcome) (f : TaskFn) (s : State) :
    wire (callTickFct env f s) = wire s ∧
    (callTickFct env f s).busLog =
      s.busLog ++ (if f = TaskFn.TempRead then [readRequest s] else []) := by
  cases f
  · exact ⟨readTemp_wire env s, readTemp_busLog env s⟩
  · simpa using TickFct_TempManip_wire s
  · simpa using TickFct_TempReport_wire s

theorem schedulerBody_wire (env : Nat → BusOutcome) (i : Fin 3) (s : State) :
    wire (schedulerBody env i s) = wire s ∧
    (schedulerBody env i s).busLog = s.busLog ++
      (if (s.tasks i).period ≤ (s.tasks i).elapsedTime ∧ (s.tasks i).TickFct = TaskFn.TempRead
       then [readRequest s] else []) := by
  unfold schedulerBody
  dsimp only
  split_ifs with h1 h2 h3
  · have h := callTickFct_wire env (s.tasks i).TickFct
      { s with callLog := s.callLog ++ [(i, (s.tasks i).TickFct)] }
    rw [if_pos h2.2] at h
    exact h
  · have h := callTickFct_wire env (s.tasks i).TickFct
      { s with callLog := s.callLog ++ [(i, (s.tasks i).TickFct)] }
    rw [if_neg (fun h => h2 ⟨h1, h⟩)] at h
    exact h
  · exact absurd h3.1 h1
  · exact ⟨rfl, by simp⟩

theorem TickFct_Scheduler_wire (env : Nat → BusOutcome) (s : State) :
    wire (TickFct_Scheduler env s) = wire s := by
  unfold TickFct_Scheduler
  simp only [List.foldl]
  rw [(schedulerBody_wire env _ _).1, (schedulerBody_wire env _ _).1,
    (schedulerBody_wire env _ _).1]

theorem Later_wire {s0 t : State} (h : Later s0 t) : wire t = wire s0 := by
  induction h with
  | start => rfl
  | pass env _ ih => rw [TickFct_Scheduler_wire, ih]
  | lower _ ih => exact ih
  | timer _ ih => exact ih
  | button0 _ ih => exact ih
  | button1 _ ih => exact ih

theorem Later_Reach {env : Nat → BusOutcome} {t : State} (h : Later (mainThread_init env) t) :
    ∃ k, Reach k t := by
  induction h with
  | start => exact ⟨0, Reach.init env⟩
  | pass e _ ih => obtain ⟨k, hk⟩ := ih; exact ⟨k + 1, Reach.pass e hk⟩
  | lower _ ih => obtain ⟨k, hk⟩ := ih; exact ⟨k, Reach.lower hk⟩
  | timer _ ih => obtain ⟨k, hk⟩ := ih; exact ⟨k, Reach.timer hk⟩
  | button0 _ ih => obtain ⟨k, hk⟩ := ih; exact ⟨k, Reach.button0 hk⟩
  | button1 _ ih => obtain ⟨k, hk⟩ := ih; exact ⟨k, Reach.button1 hk⟩

theorem Reach_Later {k : Nat} {t : State} (h : Reach k t) :
    ∃ env, Later (mainThread_init env) t := by
  induction h with
  | init env => exact ⟨env, Later.start⟩
  | pass e _ ih => obtain ⟨env, hk⟩ := ih; exact ⟨env, Later.pass e hk⟩
  | lower _ ih => obtain ⟨env, hk⟩ := ih; exact ⟨env, Later.lower hk⟩
  | timer _ ih => obtain ⟨env, hk⟩ := ih; exact ⟨env, Later.timer hk⟩
  | button0 _ ih => obtain ⟨env, hk⟩ := ih; exact ⟨env, Later.button0 hk⟩
  | button1 _ ih => obtain ⟨env, hk⟩ := ih; exact ⟨env, Later.button1 hk⟩

theorem TickFct_Scheduler_busLog (env : Nat → BusOutcome) {k : Nat} {s : State} (h : Reach k s) :
    (TickFct_Scheduler env s).busLog =
      s.busLog ++ (if k % 5 = 0 then [readRequest s] else []) := by
  have t0 := Reach_tasks h 0
  have t1 := Reach_tasks h 1
  have t2 := Reach_tasks h 2
  unfold TickFct_Scheduler
  simp only [List.foldl]
  rw [(schedulerBody_wire env _ _).2, (schedulerBody_wire env _ _).2,
    (schedulerBody_wire env _ _).2]
  simp only [schedulerBody_tasks, Function.update, t0, t1, t2, tableAt]
  have e : (500 ≤ if k = 0 then 500 else 100 * ((k - 1) % 5 + 1)) ↔ k % 5 = 0 := by
    split_ifs <;> omega
  simp [e]


theorem mem_passCalls_TempRead (env : Nat → BusOutcome) {k : Nat} {s : State} (h : Reach k s) :
    TaskFn.TempRead ∈ (passCalls env s).map Prod.snd ↔ k % 5 = 0 := by
  obtain ⟨h0, h1, h2⟩ := dueCall_Reach h
  rw [passCalls_eq, h0, h1, h2]
  split_ifs <;> simp_all

theorem mainThread_init_not_found (env : Nat → BusOutcome)
    (h0 : (env reset.busLog.length).ok = false) (h1 : (env (reset.busLog.length + 1)).ok = false)
    (h2 : (env (reset.busLog.length + 2)).ok = false) :
    (mainThread_init env).output = notFoundText ∧
    (mainThread_init env).busLog = probeRequests ∧
    readRequest (mainThread_init env) = ⟨0x41, 1, 1, 2⟩ := by
  have e0 : reset.busLog.length = 0 := rfl
  rw [e0] at h0 h1 h2
  simp only [Nat.zero_add] at h1 h2
  simp [mainThread_init, initTasks, initI2C, probeLoop, sensors, I2C_transfer, DISPLAY, snprintf,
    notFoundText, probeRequests, readRequest, reset, h0, h1, h2]

theorem Later_busLog {env : Nat → BusOutcome} {t : State} (h : Later (mainThread_init env) t) :
    ∃ n, t.busLog = (mainThread_init env).busLog
      ++ List.replicate n (readRequest (mainThread_init env)) := by
  induction h with
  | start => exact ⟨0, by simp⟩
  | @pass e s hs ih =>
    obtain ⟨n, hn⟩ := ih
    obtain ⟨k, hk⟩ := Later_Reach hs
    rw [TickFct_Scheduler_busLog e hk, hn, readRequest_of_wire (Later_wire hs)]
    split_ifs
    · exact ⟨n + 1, by rw [List.append_assoc, List.replicate_succ']⟩
    · exact ⟨n, by simp⟩
  | lower _ ih => exact ih
  | timer _ ih => exact ih
  | button0 _ ih => exact ih
  | button1 _ ih => exact ih

theorem runFail6_Later : Later (mainThread_init busAllFail) runFail6 :=
  Later.pass _ (Later.button0 (Later.pass _ (Later.pass _ (Later.pass _ (Later.pass _
    (Later.button1 (Later.pass _ Later.start)))))))

/-! ## Claims, continued -/

/-- C11, as stated, fails: the status line formatted from `report0` ends with
line feed (0x0A) followed by carriage return (0x0D), not with carriage return
followed by line feed. -/
theorem TickFct_TempReport_not_CRLF :
    lastTwo (TickFct_TempReport report0).output = [Char.ofNat 10, Char.ofNat 13] ∧
    lastTwo (TickFct_TempReport report0).output ≠ [Char.ofNat 13, Char.ofNat 10] := by
  decide

/-- C11, amended: for all values of the `int16_t` temperatures and the `int`
count, the status line formatted by `TickFct_TempReport` ends with the closing
`>` followed by line feed (0x0A) and then carriage return (0x0D), the order of
the format string. -/
theorem TickFct_TempReport_terminator (s : State)
    (hr0 : -32768 ≤ s.RoomTemp) (hr1 : s.RoomTemp ≤ 32767)
    (ht0 : -32768 ≤ s.SetTemp) (ht1 : s.SetTemp ≤ 32767)
    (hd0 : -2147483648 ≤ s.Duration) (hd1 : s.Duration ≤ 2147483647) :
    lastTwo (TickFct_TempReport s).output = [Char.ofNat 10, Char.ofNat 13] ∧
    ∃ body, (TickFct_TempReport s).output = body ++ ['>', Char.ofNat 10, Char.ofNat 13] := by
  rw [TickFct_TempReport_output s hr0 hr1 ht0 ht1 hd0 hd1]
  obtain ⟨body, hb⟩ := reportText_ends s.RoomTemp s.SetTemp
    (if s.RoomTemp < s.SetTemp then 1 else 0) s.Duration
  refine ⟨?_, body, hb⟩
  rw [hb]
  have e : body ++ ['>', Char.ofNat 10, Char.ofNat 13]
      = (body ++ ['>']) ++ [Char.ofNat 10, Char.ofNat 13] := by simp
  rw [e, lastTwo_append_pair]

/-- C11, amended, at the state `report0`. -/
theorem TickFct_TempReport_terminator_witness :
    (-32768 ≤ report0.RoomTemp ∧ report0.RoomTemp ≤ 32767 ∧ -32768 ≤ report0.SetTemp ∧
      report0.SetTemp ≤ 32767 ∧ -2147483648 ≤ report0.Duration ∧
      report0.Duration ≤ 2147483647) ∧
    lastTwo (TickFct_TempReport report0).output = [Char.ofNat 10, Char.ofNat 13] :=
  ⟨by decide,
   (TickFct_TempReport_terminator report0 (by decide) (by decide) (by decide) (by decide)
     (by decide) (by decide)).1⟩

/-- C12: for every outcome of the three probe transfers, `initI2C` issues them
in table order (0x48, 0x49, 0x41, each with its result register as the written
byte), stops after the first that succeeds, leaves that candidate's address
and result register in the shared transaction, reports the candidate it
stopped at, and reports not-found iff all three transfers fail. -/
theorem initI2C_probe (env : Nat → BusOutcome) (s : State) :
    (initI2C env s).busLog = s.busLog ++
      (if (env s.busLog.length).ok then probeRequests.take 1
       else if (env (s.busLog.length + 1)).ok then probeRequests.take 2
       else probeRequests) ∧
    ((initI2C env s).i2cTransaction.slaveAddress, (initI2C env s).txBuffer) =
      (if (env s.busLog.length).ok then (0x48, 0)
       else if (env (s.busLog.length + 1)).ok then (0x49, 0)
       else (0x41, 1)) ∧
    (initI2C env s).output =
      (if (env s.busLog.length).ok then "Detected TMP11X I2C address:48\n\r".toList
       else if (env (s.busLog.length + 1)).ok then "Detected TMP116 I2C address:49\n\r".toList
       else if (env (s.busLog.length + 2)).ok then "Detected TMP006 I2C address:41\n\r".toList
       else notFoundText) ∧
    ((initI2C env s).output = notFoundText ↔
      ((env s.busLog.length).ok = false ∧ (env (s.busLog.length + 1)).ok = false ∧
       (env (s.busLog.length + 2)).ok = false)) := by
  cases ha : (env s.busLog.length).ok <;> cases hb : (env (s.busLog.length + 1)).ok <;>
    cases hc : (env (s.busLog.length + 2)).ok <;>
    simp [initI2C, probeLoop, sensors, I2C_transfer, DISPLAY, snprintf, probeRequests,
      notFoundText, ha, hb, hc, fmt_x, Nat.toDigits, Nat.toDigitsCore, Nat.digitChar]

/-- C13, as stated, fails: at the largest `int` the report count after
`TickFct_TempReport` is not the count at entry plus 1, and it is smaller than
the count at entry. -/
theorem TickFct_TempReport_count_wraps :
    countAtMax.Duration = 2147483647 ∧
    (TickFct_TempReport countAtMax).Duration ≠ countAtMax.Duration + 1 ∧
    (TickFct_TempReport countAtMax).Duration < countAtMax.Duration := by
  decide

/-- C13, amended: for every `int` count below the largest `int`, one call of
`TickFct_TempReport` leaves `Duration` at its entry value plus 1; the read and
manipulate tasks, the three callbacks and the scheduler's own bookkeeping
leave it unchanged (the loop body changes it only by calling
`TickFct_TempReport`); so in every execution a pass from a count below the
largest `int` never decreases it, and before pass `k` the count is the number
of reports made, `(k + 9) / 10`, as long as that fits an `int`. -/
theorem Duration_counts_reports :
    (∀ s : State, -2147483648 ≤ s.Duration → s.Duration < 2147483647 →
      (TickFct_TempReport s).Duration = s.Duration + 1) ∧
    (∀ (env : Nat → BusOutcome) (s : State), (TickFct_TempRead env s).Duration = s.Duration) ∧
    (∀ s : State, (TickFct_TempManip s).Duration = s.Duration) ∧
    (∀ s : State, (gpioButtonFxn0 s).Duration = s.Duration ∧
      (gpioButtonFxn1 s).Duration = s.Duration ∧ (timerCallback s).Duration = s.Duration) ∧
    (∀ (env : Nat → BusOutcome) (i : Fin 3) (s : State),
      (schedulerBody env i s).Duration =
        if (s.tasks i).period ≤ (s.tasks i).elapsedTime ∧ (s.tasks i).TickFct = TaskFn.TempReport
        then (TickFct_TempReport s).Duration else s.Duration) ∧
    (∀ (env : Nat → BusOutcome) (k : Nat) (s : State), Reach k s → s.Duration < 2147483647 →
      s.Duration ≤ (TickFct_Scheduler env s).Duration) ∧
    (∀ (k : Nat) (s : State), Reach k s → (k + 9) / 10 ≤ 2147483647 →
      s.Duration = (((k + 9) / 10 : Nat) : Int)) := by
  refine ⟨?_, TickFct_TempRead_Duration, fun s => (TickFct_TempManip_rest s).2.2,
    fun s => ⟨rfl, rfl, rfl⟩, ?_, ?_, ?_⟩
  · intro s h0 h1
    rw [TickFct_TempReport_Duration]
    unfold toInt32
    omega
  · intro env i s
    rw [schedulerBody_Duration, TickFct_TempReport_Duration]
  · intro env k s h hlt
    have hr := (Reach_Duration_range h).1
    rw [TickFct_Scheduler_Duration env h]
    unfold toInt32
    split_ifs <;> omega
  · intro k s h hk
    rw [Reach_Duration h]
    unfold toInt32
    omega

/-- C13, amended, at the state `report0` with count 0: the count after the
report is 1. -/
theorem Duration_counts_reports_witness :
    (-2147483648 ≤ report0.Duration ∧ report0.Duration < 2147483647) ∧
    (TickFct_TempReport report0).Duration = 1 :=
  ⟨by decide, (Duration_counts_reports.1 report0 (by decide) (by decide)).trans (by decide)⟩

/-- C14: `gpioButtonFxn0` sets `DecrFlag`, `gpioButtonFxn1` sets `IncrFlag`
and `timerCallback` sets `TimerFlag`; each leaves the two other flags and
every other variable, the task table and the logs unchanged. -/
theorem callbacks_write_one_flag (s : State) :
    (sameButFlags s (gpioButtonFxn0 s) ∧ (gpioButtonFxn0 s).DecrFlag = 1 ∧
      (gpioButtonFxn0 s).IncrFlag = s.IncrFlag ∧ (gpioButtonFxn0 s).TimerFlag = s.TimerFlag) ∧
    (sameButFlags s (gpioButtonFxn1 s) ∧ (gpioButtonFxn1 s).IncrFlag = 1 ∧
      (gpioButtonFxn1 s).DecrFlag = s.DecrFlag ∧ (gpioButtonFxn1 s).TimerFlag = s.TimerFlag) ∧
    (sameButFlags s (timerCallback s) ∧ (timerCallback s).TimerFlag = 1 ∧
      (timerCallback s).IncrFlag = s.IncrFlag ∧ (timerCallback s).DecrFlag = s.DecrFlag) := by
  refine ⟨⟨?_, rfl, rfl, rfl⟩, ⟨?_, rfl, rfl, rfl⟩, ⟨?_, rfl, rfl, rfl⟩⟩ <;>
    exact ⟨rfl, rfl, rfl, rfl, rfl, rfl, rfl, rfl, rfl, rfl, rfl, rfl, rfl, rfl⟩

/-- C15, as stated, fails: after a probe in which all three transfers fail
(`initI2C` reports not-found), the next `TickFct_TempRead` issues a bus
transfer, a 2-byte read at address 0x41 with written byte 1. -/
theorem readTemp_after_failed_probe :
    (mainThread_init busAllFail).output = notFoundText ∧
    (TickFct_TempRead busAllFail (mainThread_init busAllFail)).busLog =
      (mainThread_init busAllFail).busLog ++ [⟨0x41, 1, 1, 2⟩] := by
  decide

/-- C15, amended: if the probe of `initI2C` finds no responding candidate
(`initI2C` reports not-found), then in every later state of the execution a
call of `TickFct_TempRead` still issues one bus transfer, a 2-byte read at the
last probed address 0x41 with written byte 1; a scheduler pass issues that
transfer exactly when it invokes `TickFct_TempRead`; every transfer on the bus
after the three of the probe is such a read; and in any state at all a call of
`TickFct_TempRead` issues exactly one transfer. -/
theorem readTemp_always_transfers (env e : Nat → BusOutcome) (t : State)
    (h0 : (env reset.busLog.length).ok = false) (h1 : (env (reset.busLog.length + 1)).ok = false)
    (h2 : (env (reset.busLog.length + 2)).ok = false) (ht : Later (mainThread_init env) t) :
    (mainThread_init env).output = notFoundText ∧
    (TickFct_TempRead e t).busLog = t.busLog ++ [⟨0x41, 1, 1, 2⟩] ∧
    (TickFct_Scheduler e t).busLog = t.busLog ++
      (if TaskFn.TempRead ∈ (passCalls e t).map Prod.snd then [⟨0x41, 1, 1, 2⟩] else []) ∧
    (∃ n, t.busLog = probeRequests ++ List.replicate n ⟨0x41, 1, 1, 2⟩) ∧
    (∀ (e' : Nat → BusOutcome) (u : State),
      (TickFct_TempRead e' u).busLog.length = u.busLog.length + 1) := by
  obtain ⟨a, b, c⟩ := mainThread_init_not_found env h0 h1 h2
  have hw : readRequest t = ⟨0x41, 1, 1, 2⟩ := by
    rw [readRequest_of_wire (Later_wire ht), c]
  obtain ⟨k, hk⟩ := Later_Reach ht
  refine ⟨a, ?_, ?_, ?_, ?_⟩
  · show (readTemp e t).1.busLog = _
    rw [readTemp_busLog]
    exact congrArg (fun r => t.busLog ++ [r]) hw
  · rw [TickFct_Scheduler_busLog e hk, hw]
    have hm := mem_passCalls_TempRead e hk
    by_cases h5 : k % 5 = 0
    · rw [if_pos h5, if_pos (hm.mpr h5)]
    · rw [if_neg h5, if_neg (fun h => h5 (hm.mp h))]
  · obtain ⟨n, hn⟩ := Later_busLog ht
    exact ⟨n, by rw [hn, b, c]⟩
  · intro e' u
    show (readTemp e' u).1.busLog.length = _
    rw [readTemp_busLog]
    simp

/-- C15, amended, six passes and two button presses into the execution on a
bus where every transfer fails: the next read is a transfer to 0x41. -/
theorem readTemp_always_transfers_witness :
    ((busAllFail reset.busLog.length).ok = false ∧
      (busAllFail (reset.busLog.length + 1)).ok = false ∧
      (busAllFail (reset.busLog.length + 2)).ok = false ∧
      Later (mainThread_init busAllFail) runFail6) ∧
    (TickFct_TempRead busAllFail runFail6).busLog = runFail6.busLog ++ [⟨0x41, 1, 1, 2⟩] :=
  ⟨⟨by decide, by decide, by decide, runFail6_Later⟩,
   (readTemp_always_transfers busAllFail busAllFail runFail6 (by decide) (by decide)
     (by decide) runFail6_Later).2.1⟩

/-- C16: for every state and `n ≥ 1`, `n` calls of `gpioButtonFxn1` (of
`gpioButtonFxn0`) followed by `TickFct_TempManip` give the same state as one
call of the handler followed by `TickFct_TempManip`; and one call of
`TickFct_TempManip` changes an `int16_t` setpoint by at most 1. -/
theorem presses_collapse (s : State) (n : Nat) (hn : 1 ≤ n) :
    TickFct_TempManip (gpioButtonFxn1^[n] s) = TickFct_TempManip (gpioButtonFxn1 s) ∧
    TickFct_TempManip (gpioButtonFxn0^[n] s) = TickFct_TempManip (gpioButtonFxn0 s) ∧
    (-32768 ≤ s.SetTemp → s.SetTemp ≤ 32767 →
      s.SetTemp - 1 ≤ (TickFct_TempManip s).SetTemp ∧
      (TickFct_TempManip s).SetTemp ≤ s.SetTemp + 1) := by
  obtain ⟨m, rfl⟩ : ∃ m, n = m + 1 := ⟨n - 1, by omega⟩
  rw [gpioButtonFxn1_iterate, gpioButtonFxn0_iterate]
  have e : (TickFct_TempManip s).SetTemp = (manipKnob (knob s)).1 :=
    congrArg Prod.fst (TickFct_TempManip_knob s)
  rw [e]
  exact ⟨rfl, rfl, manipKnob_step (knob s)⟩

/-- C16 for three presses of the increment button after start-up: the
manipulate task moves the setpoint from 0 to 1, as after one press. -/
theorem presses_collapse_witness :
    1 ≤ 3 ∧
    TickFct_TempManip (gpioButtonFxn1^[3] reset) = TickFct_TempManip (gpioButtonFxn1 reset) ∧
    (TickFct_TempManip (gpioButtonFxn1^[3] reset)).SetTemp = 1 :=
  ⟨by decide, (presses_collapse reset 3 (by decide)).1, by decide⟩

/-- C17: two executions from the initial table that differ in bus results
and button presses have, after the same number of passes, the same task
table, and their next passes invoke the same task functions and leave the
same table; when the read of a pass fails, whether the manipulate and report
tasks run in that pass is still decided by the pass number alone. -/
theorem scheduling_independent_of_outcomes (k : Nat) (s s' : State)
    (env env' : Nat → BusOutcome) (h : Reach k s) (h' : Reach k s') :
    s.tasks = s'.tasks ∧
    (TickFct_Scheduler env s).tasks = (TickFct_Scheduler env' s').tasks ∧
    passCalls env s = passCalls env' s' ∧
    ((env s.busLog.length).ok = false →
      (TaskFn.TempManip ∈ (passCalls env s).map Prod.snd ↔ k % 2 = 0) ∧
      (TaskFn.TempReport ∈ (passCalls env s).map Prod.snd ↔ k % 10 = 0)) := by
  have e : s.tasks = s'.tasks := by
    funext i
    rw [Reach_tasks h i, Reach_tasks h' i]
  refine ⟨e, ?_, ?_, ?_⟩
  · funext i
    rw [TickFct_Scheduler_tasks, TickFct_Scheduler_tasks, e]
  · rw [passCalls_eq, passCalls_eq]
    unfold dueCall
    rw [e]
  · intro _
    obtain ⟨h0, h1, h2⟩ := dueCall_Reach h
    rw [passCalls_eq, h0, h1, h2]
    refine ⟨?_, ?_⟩ <;> split_ifs <;> simp_all

/-- C17 for the executions `runA` and `runB`, one pass each: they differ in
the probe, a button press and the first read, and have the same task table and
the same calls in their next pass. -/
theorem scheduling_independent_of_outcomes_witness :
    (Reach 1 runA ∧ Reach 1 runB) ∧ runA.tasks = runB.tasks ∧
    passCalls busAllFail runA = passCalls (busAlways 0x0C 0x80) runB :=
  ⟨⟨Reach.pass busAllFail (Reach.button1 (Reach.init busAllFail)),
    Reach.pass (busAlways 0x0C 0x80) (Reach.init (busAlways 0x0C 0x80))⟩,
   (scheduling_independent_of_outcomes 1 runA runB busAllFail (busAlways 0x0C 0x80)
     (Reach.pass busAllFail (Reach.button1 (Reach.init busAllFail)))
     (Reach.pass (busAlways 0x0C 0x80) (Reach.init (busAlways 0x0C 0x80)))).1,
   (scheduling_independent_of_outcomes 1 runA runB busAllFail (busAlways 0x0C 0x80)
     (Reach.pass busAllFail (Reach.button1 (Reach.init busAllFail)))
     (Reach.pass (busAlways 0x0C 0x80) (Reach.init (busAlways 0x0C 0x80)))).2.2.1⟩

/-- C18: at every pass boundary of an execution each task's `elapsedTime` is
a multiple of 100 with `100 ≤ elapsedTime ≤ period` (equal to the period
before the first pass); adding the base tick stays below `ULONG_MAX`, so the
next pass computes the exact sum without wrapping; and the task's period and
function are those set by `mainThread`. -/
theorem elapsedTime_bounded (env : Nat → BusOutcome) (k : Nat) (s : State) (h : Reach k s)
    (i : Fin 3) :
    100 ∣ (s.tasks i).elapsedTime ∧ 100 ≤ (s.tasks i).elapsedTime ∧
    (s.tasks i).elapsedTime ≤ (s.tasks i).period ∧
    (k = 0 → (s.tasks i).elapsedTime = (s.tasks i).period) ∧
    (s.tasks i).elapsedTime + tasksPeriodGCD ≤ ULONG_MAX ∧
    ((TickFct_Scheduler env s).tasks i).elapsedTime
      = (if (s.tasks i).period ≤ (s.tasks i).elapsedTime then 0 else (s.tasks i).elapsedTime)
        + tasksPeriodGCD ∧
    (∀ env0 : Nat → BusOutcome,
      (s.tasks i).period = ((mainThread_init env0).tasks i).period ∧
      (s.tasks i).TickFct = ((mainThread_init env0).tasks i).TickFct) := by
  obtain ⟨a, b, c, d, e, f⟩ := tableAt_bounds k i
  have hp : (tableAt k i).period ≤ 1000 := by
    fin_cases i <;> simp [tableAt]
  rw [TickFct_Scheduler_tasks, Reach_tasks h i]
  refine ⟨a, b, c, d, ?_, ?_, ?_⟩
  · unfold tasksPeriodGCD ULONG_MAX
    omega
  · unfold tickTask toULong tasksPeriodGCD ULONG_MAX
    dsimp only
    split_ifs <;> omega
  · intro env0
    rw [Reach_tasks (Reach.init env0) i]
    exact ⟨e, f⟩

/-- C18 one pass into the execution `runA`, for the report task: its
`elapsedTime` is 100, between 100 and its period 1000. -/
theorem elapsedTime_bounded_witness :
    Reach 1 runA ∧ (runA.tasks 2).elapsedTime = 100 ∧ 100 ≤ (runA.tasks 2).elapsedTime ∧
    (runA.tasks 2).elapsedTime ≤ (runA.tasks 2).period :=
  ⟨Reach.pass busAllFail (Reach.button1 (Reach.init busAllFail)), by decide,
   (elapsedTime_bounded busAllFail 1 runA
     (Reach.pass busAllFail (Reach.button1 (Reach.init busAllFail))) 2).2.1,
   (elapsedTime_bounded busAllFail 1 runA
     (Reach.pass busAllFail (Reach.button1 (Reach.init busAllFail))) 2).2.2.1⟩

/-- C19: on a successful transfer with received bytes `b0`, `b1` and `v` the
two's complement 16-bit value of `b0 * 256 + b1`: if `v ≥ 0` or `v ≤ -128`,
`readTemp` returns `v / 128` truncated toward zero, a value in [-256, 255]
(for `v ≥ 0` the OR is not executed, for `v ≤ -128` it leaves the value
unchanged); if `-127 ≤ v ≤ -1`, which is `b0 = 0xFF` and `b1` in 0x81..0xFF,
the scaled value is 0 and the OR with 0xF000 makes `readTemp` return -4096. -/
theorem readTemp_characterised (env : Nat → BusOutcome) (s : State)
    (hok : (env s.busLog.length).ok = true) (b0 b1 : Nat) (v : Int)
    (hb0 : b0 = (env s.busLog.length).rx0 % 256) (hb1 : b1 = (env s.busLog.length).rx1 % 256)
    (hv : v = toInt16 ((b0 * 256 + b1 : Nat) : Int)) :
    ((0 ≤ v ∨ v ≤ -128) →
      (readTemp env s).2 = Int.tdiv v 128 ∧
      -256 ≤ (readTemp env s).2 ∧ (readTemp env s).2 ≤ 255 ∧
      (0 ≤ v → b0 &&& 0x80 = 0) ∧
      (v ≤ -128 → b0 &&& 0x80 ≠ 0 ∧ toInt16 (orInt (Int.tdiv v 128) 0xF000) = Int.tdiv v 128)) ∧
    ((-127 ≤ v ∧ v ≤ -1) →
      (readTemp env s).2 = -4096 ∧ Int.tdiv v 128 = 0 ∧
      toInt16 (orInt (Int.tdiv v 128) 0xF000) = -4096) ∧
    ((-127 ≤ v ∧ v ≤ -1) ↔ (b0 = 0xFF ∧ 0x81 ≤ b1 ∧ b1 ≤ 0xFF)) := by
  have h0 : b0 < 256 := by rw [hb0]; exact Nat.mod_lt _ (by decide)
  have h1 : b1 < 256 := by rw [hb1]; exact Nat.mod_lt _ (by decide)
  have hm := msb_set_iff b0 h0
  rw [readTemp_ok env s hok, ← hb0, ← hb1, shift_or_bytes b0 b1 h1, ← hv]
  have hv' : v = if 128 ≤ b0 then ((b0 * 256 + b1 : Nat) : Int) - 65536
      else ((b0 * 256 + b1 : Nat) : Int) := by
    rw [hv]
    unfold toInt16
    split_ifs <;> omega
  refine ⟨?_, ?_, ?_⟩
  · rintro (hpos | hneg)
    · have hb : ¬ 128 ≤ b0 := by
        intro hge
        rw [if_pos hge] at hv'
        omega
      have hz : b0 &&& 0x80 = 0 := by
        by_contra hc
        exact hb (hm.mp hc)
      have ht := tdiv_128_of_nonneg v hpos
      rw [if_neg (by simpa using hz), ht]
      rw [if_neg hb] at hv'
      have hq : v / 128 < 256 := by omega
      have hq0 : 0 ≤ v / 128 := by omega
      refine ⟨?_, ?_, ?_, fun _ => hz, fun hh => by omega⟩ <;> unfold toInt16 <;> omega
    · have hb : 128 ≤ b0 := by
        by_contra hlt
        rw [if_neg hlt] at hv'
        omega
      have hnz : b0 &&& 0x80 ≠ 0 := hm.mpr hb
      have ht := tdiv_128_of_neg v (by omega)
      rw [if_pos hb] at hv'
      have hvneg : ¬ 0 ≤ v := by omega
      have hq1 : -256 ≤ -((-v) / 128) := by omega
      have hq2 : -((-v) / 128) ≤ -1 := by omega
      have hs : toInt16 (Int.tdiv v 128) = Int.tdiv v 128 := by
        rw [ht]; unfold toInt16; omega
      have ho : toInt16 (orInt (Int.tdiv v 128) 0xF000) = Int.tdiv v 128 := by
        rw [ht]; exact orInt_F000_of_neg _ hq1 hq2
      rw [if_pos hnz, hs, ho]
      refine ⟨rfl, ?_, ?_, fun hh => absurd hh hvneg, fun _ => ⟨hnz, rfl⟩⟩
      · rw [ht]; exact hq1
      · rw [ht]; exact le_trans hq2 (by decide)
  · rintro ⟨hl, hu⟩
    have hb : 128 ≤ b0 := by
      by_contra hlt
      rw [if_neg hlt] at hv'
      omega
    have hnz : b0 &&& 0x80 ≠ 0 := hm.mpr hb
    have ht : Int.tdiv v 128 = 0 := by
      rw [tdiv_128_of_neg v (by omega)]; omega
    rw [if_pos hnz, ht]
    exact ⟨by decide, rfl, by decide⟩
  · constructor
    · rintro ⟨hl, hu⟩
      have hb : 128 ≤ b0 := by
        by_contra hlt
        rw [if_neg hlt] at hv'
        omega
      rw [if_pos hb] at hv'
      omega
    · rintro ⟨e0, e1, e2⟩
      have hb : 128 ≤ b0 := by omega
      rw [if_pos hb] at hv'
      omega

/-- C19 for the received bytes 0x0C, 0x80 (the raw value 3200, 25 degrees):
`readTemp` returns 25. -/
theorem readTemp_characterised_witness :
    (busAlways 0x0C 0x80 reset.busLog.length).ok = true ∧
    (readTemp (busAlways 0x0C 0x80) reset).2 = 25 :=
  ⟨by decide,
   ((readTemp_characterised (busAlways 0x0C 0x80) reset (by decide) 0x0C 0x80 3200 (by decide)
      (by decide) (by decide)).1 (Or.inl (by decide))).1.trans (by decide)⟩

/-- C20: `TickFct_TempManip` leaves `RoomTemp`, `Heating` and `Duration`
unchanged; `TickFct_TempReport` leaves `RoomTemp`, `SetTemp`, `IncrFlag` and
`DecrFlag` unchanged; `TickFct_TempRead` leaves `SetTemp`, `Heating`,
`Duration`, `IncrFlag` and `DecrFlag` unchanged. -/
theorem tasks_write_only_their_part (env : Nat → BusOutcome) (s : State) :
    ((TickFct_TempManip s).RoomTemp = s.RoomTemp ∧ (TickFct_TempManip s).Heating = s.Heating ∧
      (TickFct_TempManip s).Duration = s.Duration) ∧
    ((TickFct_TempReport s).RoomTemp = s.RoomTemp ∧ (TickFct_TempReport s).SetTemp = s.SetTemp ∧
      (TickFct_TempReport s).IncrFlag = s.IncrFlag ∧
      (TickFct_TempReport s).DecrFlag = s.DecrFlag) ∧
    ((TickFct_TempRead env s).SetTemp = s.SetTemp ∧ (TickFct_TempRead env s).Heating = s.Heating ∧
      (TickFct_TempRead env s).Duration = s.Duration ∧
      (TickFct_TempRead env s).IncrFlag = s.IncrFlag ∧
      (TickFct_TempRead env s).DecrFlag = s.DecrFlag) := by
  have hk := TickFct_TempReport_knob s
  have hc := TickFct_TempRead_ctl env s
  simp only [knob, ctl, Prod.mk.injEq] at hk hc
  exact ⟨TickFct_TempManip_rest s, ⟨TickFct_TempReport_RoomTemp s, hk.1, hk.2.1, hk.2.2⟩,
    ⟨hc.1, hc.2.2.2.1, hc.2.2.2.2, hc.2.1, hc.2.2.1⟩⟩

end GpioInterrupt
